import Mathlib

/-!
Shallow embedding of the Population Orchestrator of
go-mysql-dummy-populator (src/populator.py, class DatabasePopulator).

External collaborators (database connector, schema analyzer, data
generator, the random module) are modelled as oracles bundled in `Env`:
each effectful call consumes one step of the global counter `tick`, so a
single oracle function of the tick can represent any sequence of
responses the real collaborator could produce.  Python exceptions that
the source does not catch (dictionary KeyError) are modelled with
`Except String`; `mysql.connector.Error` raised by an insert and a falsy
insert result are observationally identical in the source (row skipped,
loop continues), so both are modelled by `Env.insertOk` returning false.
-/

/-- A database value: NULL, an integer, or a string. -/
inductive Value : Type where
  | vnull : Value
  | vint : Int → Value
  | vstr : String → Value
deriving DecidableEq, Repr

/-- Column descriptor, as produced by the schema analyzer
(populator.py reads the fields column_name, data_type, is_nullable,
column_key and extra). -/
structure Column : Type where
  column_name : String
  data_type : String
  is_nullable : String
  column_key : String
  extra : String
deriving DecidableEq, Repr

/-- Foreign-key descriptor (populator.py reads column, referenced_table,
referenced_column, and the optional is_nullable entry whose presence in
the dict is modelled by Option). -/
structure FK : Type where
  column : String
  referenced_table : String
  referenced_column : String
  is_nullable : Option Bool
deriving DecidableEq, Repr

/-- One inserted row: mapping from column name to value, in insertion
order (a Python dict preserves insertion order). -/
def Row : Type := List (String × Value)

instance : DecidableEq Row := by
  unfold Row; infer_instance

instance : Repr Row := by
  unfold Row; infer_instance

/-- The static environment: schema metadata, configuration, and the
oracle functions for the database connector, the data generator and the
random module.  Each oracle takes the current tick so that distinct
calls may receive distinct responses. -/
structure Env : Type where
  table_columns : List (String × List Column)
  foreign_keys : List (String × List FK)
  num_records : Nat
  max_retries : Nat
  analyze_ok : Bool
  ordered_tables : List String
  circular_tables : List String
  insertOk : Nat → Bool
  lastId : Nat → Option (List Int)
  probe : Nat → Option (List Value)
  probeInts : Nat → Option (List Int)
  choice : Nat → Nat → Nat
  randint : Nat → Nat → Nat → Nat
  shuffle : Nat → List String → List String
  genValue : Nat → Column → Option String → Value

/-- Contracts of the Python collaborators: random.choice returns an
in-range index, random.randint stays within its bounds, random.shuffle
permutes (we only need that it preserves membership). -/
structure EnvOk (env : Env) : Prop where
  choice_lt : ∀ t n, 0 < n → env.choice t n < n
  randint_ge : ∀ t lo hi, lo ≤ hi → lo ≤ env.randint t lo hi
  randint_le : ∀ t lo hi, lo ≤ hi → env.randint t lo hi ≤ hi
  shuffle_mem : ∀ t l x, x ∈ env.shuffle t l → x ∈ l

/-- Mutable state of a DatabasePopulator: the Per-table Row Store
(self.inserted_data), the Failed-Table Set (self.failed_tables), the
cached SyncSource id pool (self._sync_source_ids, none while the
attribute is unset), and the global effect counter. -/
structure PState : Type where
  inserted_data : List (String × List Row)
  failed_tables : List String
  sync_source_ids : Option (List Int)
  tick : Nat
deriving DecidableEq, Repr

/-- State right after DatabasePopulator.__init__. -/
def initState : PState :=
  { inserted_data := [], failed_tables := [], sync_source_ids := none, tick := 0 }

/-- Advance the effect counter by one (one collaborator call). -/
def bump (st : PState) : PState :=
  { st with tick := st.tick + 1 }

/-- Python str.lower(), over the string's characters (the declared type
names and nullability flags are ASCII).  Defined through List.map so
that it evaluates inside the kernel. -/
def strLower (s : String) : String := String.mk (s.data.map Char.toLower)

/-- Python dict lookup on an association list. -/
def alookup {α : Type} : List (String × α) → String → Option α
  | [], _ => none
  | (k, v) :: rest, t => if t = k then some v else alookup rest t

/-- Dict-style assignment on a row: replace the value at an existing key
in place, otherwise append the new key at the end. -/
def setv : Row → String → Value → Row
  | [], k, v => [(k, v)]
  | (k2, v2) :: rest, k, v =>
      if k2 = k then (k, v) :: rest else (k2, v2) :: setv rest k v

/-- Assoc-list update for the per-table row store. -/
def setRows : List (String × List Row) → String → List Row → List (String × List Row)
  | [], t, rs => [(t, rs)]
  | (k, v) :: rest, t, rs =>
      if k = t then (t, rs) :: rest else (k, v) :: setRows rest t rs

/-- The rows stored so far for one table; defaultdict(list) semantics:
an absent table reads as the empty list. -/
def getRows (st : PState) (t : String) : List Row :=
  (alookup st.inserted_data t).getD []

/-- Append one committed row to a table's store. -/
def appendRow (st : PState) (t : String) (r : Row) : PState :=
  { st with inserted_data := setRows st.inserted_data t (getRows st t ++ [r]) }

/-- Python set add: no duplicates. -/
def insertSet (l : List String) (t : String) : List String :=
  if t ∈ l then l else l ++ [t]

/-- The integer column types special-cased in _generate_placeholder_value. -/
def intTypes : List String := ["int", "bigint", "smallint", "tinyint", "mediumint"]

/-- The string column types special-cased in _generate_placeholder_value. -/
def strTypes : List String := ["varchar", "char"]

/-- DatabasePopulator._generate_placeholder_value.  Consumes exactly one
oracle call (either random.randint or data_gen.generate_value with
table_name None), so the caller advances the tick by one. -/
def generatePlaceholderValue (env : Env) (col : Column) (t : Nat) : Value :=
  if col.column_key = "PRI" then
    if intTypes.contains (strLower col.data_type) then
      Value.vint (Int.ofNat (env.randint t 1000000 9999999))
    else if strTypes.contains (strLower col.data_type) then
      Value.vstr (String.append "temp-" (toString (env.randint t 100000 999999)))
    else env.genValue t col none
  else env.genValue t col none

/-- The first foreign-key descriptor of the table whose column matches
(populator.py lines 223-229: scan with break). -/
def findFK (env : Env) (table : String) (colName : String) : Option FK :=
  ((alookup env.foreign_keys table).getD []).find? (fun fk => fk.column = colName)

/-- The effective nullability of a foreign-key column (populator.py
lines 233-246): the column's own is_nullable flag, overridden by the
foreign-key descriptor's is_nullable entry when that entry is present. -/
def effNullable (env : Env) (table : String) (col : Column) (fk : FK) : Bool :=
  let base := strLower col.is_nullable = "yes"
  match ((alookup env.foreign_keys table).getD []).find?
      (fun f => f.column = col.column_name ∧ f.referenced_table = fk.referenced_table) with
  | some f =>
    match f.is_nullable with
    | some b => b
    | none => base
  | none => base

/-- Truthiness of the cached SyncSource id pool (hasattr check plus a
non-empty list). -/
def poolNonempty (st : PState) : Bool :=
  match st.sync_source_ids with
  | some ids => !ids.isEmpty
  | none => false

/-- random.choice over the cached SyncSource id pool. -/
def poolChoose (env : Env) (st : PState) : Int :=
  match st.sync_source_ids with
  | some ids => ids.getD (env.choice st.tick ids.length) 0
  | none => 0

/-- The foreign-key / plain-column resolution for one column, everything
in the per-column loop body of _generate_row_data after the sentinel
shortcut (populator.py lines 218-287). -/
def resolveColumnMain (env : Env) (table : String) (col : Column) (hc : Bool)
    (st : PState) : (Except String Value) × PState :=
  match findFK env table col.column_name with
  | some fk =>
    if getRows st fk.referenced_table ≠ [] then
      match alookup ((getRows st fk.referenced_table).getD
          (env.choice st.tick (getRows st fk.referenced_table).length) [])
          fk.referenced_column with
      | some v => (Except.ok v, bump st)
      | none => (Except.error "KeyError", bump st)
    else if effNullable env table col fk then
      (Except.ok Value.vnull, st)
    else if hc then
      match env.probe st.tick with
      | some (v :: _) =>
        if v = Value.vnull then
          (Except.ok (generatePlaceholderValue env col (st.tick + 1)), bump (bump st))
        else (Except.ok v, bump st)
      | some [] =>
        (Except.ok (generatePlaceholderValue env col (st.tick + 1)), bump (bump st))
      | none =>
        (Except.ok (generatePlaceholderValue env col (st.tick + 1)), bump (bump st))
    else
      (Except.ok (generatePlaceholderValue env col st.tick), bump st)
  | none => (Except.ok (env.genValue st.tick col (some table)), bump st)

/-- One column of _generate_row_data, including the SyncSource_LogAlert
sentinel shortcut (populator.py lines 211-216). -/
def resolveColumn (env : Env) (table : String) (col : Column) (hc : Bool)
    (st : PState) : (Except String Value) × PState :=
  if table = "SyncSource_LogAlert" ∧ col.column_name = "SyncSource_ID" ∧
      poolNonempty st = true then
    (Except.ok (Value.vint (poolChoose env st)), bump st)
  else resolveColumnMain env table col hc st

/-- The per-column loop of _generate_row_data. -/
def resolveColumns (env : Env) (table : String) (cols : List Column) (hc : Bool)
    (row : Row) (st : PState) : (Except String Row) × PState :=
  match cols with
  | [] => (Except.ok row, st)
  | col :: rest =>
    match resolveColumn env table col hc st with
    | (Except.ok v, st1) =>
        resolveColumns env table rest hc (setv row col.column_name v) st1
    | (Except.error e, st1) => (Except.error e, st1)

/-- The SyncSource pool refresh at the top of _generate_row_data
(populator.py lines 187-205): for SyncSource_LogAlert, probe SyncSource
with LIMIT 1 and, when that is truthy, fetch all ids and cache them in
self._sync_source_ids when that second result is truthy too. -/
def refreshPool (env : Env) (table : String) (st : PState) : PState :=
  if table = "SyncSource_LogAlert" then
    match env.probeInts st.tick with
    | some (_ :: _) =>
      match env.probeInts (bump st).tick with
      | some ids =>
        if ids ≠ [] then { bump (bump st) with sync_source_ids := some ids }
        else bump (bump st)
      | none => bump (bump st)
    | some [] => bump st
    | none => bump st
  else st

/-- DatabasePopulator._generate_row_data: the SyncSource pool refresh,
then the per-column loop (populator.py lines 172-288). -/
def generateRowData (env : Env) (table : String) (cols : List Column) (hc : Bool)
    (st : PState) : (Except String Row) × PState :=
  resolveColumns env table cols hc [] (refreshPool env table st)

/-- Truthiness of the result of the SELECT LAST_INSERT_ID() probe as
checked by the source (result truthy and result[0] id truthy). -/
def truthyId : Option (List Int) → Bool
  | some (id :: _) => id != 0
  | some [] => false
  | none => false

/-- The auto-increment back-fill for one column (populator.py lines
147-153 / 399-404): when the column is auto_increment, read
LAST_INSERT_ID and, if the result and the id are truthy, overwrite the
generated value in the row; otherwise leave the row unchanged. -/
def backfillStep (env : Env) (col : Column) (row : Row) (st : PState) : Row × PState :=
  if col.extra = "auto_increment" then
    match env.lastId st.tick with
    | some (id :: _) =>
      if id = 0 then (row, bump st)
      else (setv row col.column_name (Value.vint id), bump st)
    | some [] => (row, bump st)
    | none => (row, bump st)
  else (row, st)

/-- The back-fill loop over the table's columns. -/
def backfillColumns (env : Env) (cols : List Column) (row : Row) (st : PState) :
    Row × PState :=
  match cols with
  | [] => (row, st)
  | col :: rest =>
    backfillColumns env rest (backfillStep env col row st).1
      (backfillStep env col row st).2

/-- One insert attempt: generate the row, execute the parameterized
INSERT with commit (Env.insertOk), and on success back-fill the
auto-increment id and append the completed row to the Per-table Row
Store.  Shared body of the record loop of _populate_table (lines
138-157) and of _try_partial_population (lines 391-409); returns whether
a row was appended. -/
def attemptInsert (env : Env) (table : String) (cols : List Column) (hc : Bool)
    (st : PState) : (Except String Bool) × PState :=
  match generateRowData env table cols hc st with
  | (Except.error e, st1) => (Except.error e, st1)
  | (Except.ok row, st1) =>
    if env.insertOk st1.tick then
      (Except.ok true,
        appendRow (backfillColumns env cols row (bump st1)).2 table
          (backfillColumns env cols row (bump st1)).1)
    else (Except.ok false, bump st1)

/-- The for-i-in-range(num_records) loop of _populate_table, counting
successful inserts. -/
def insertLoop (env : Env) (table : String) (cols : List Column) (hc : Bool) :
    Nat → Nat → PState → (Except String Nat) × PState
  | 0, succ, st => (Except.ok succ, st)
  | Nat.succ n, succ, st =>
    match attemptInsert env table cols hc st with
    | (Except.error e, st1) => (Except.error e, st1)
    | (Except.ok b, st1) =>
        insertLoop env table cols hc n (if b then succ + 1 else succ) st1

/-- DatabasePopulator._populate_table (populator.py lines 94-170),
additionally reporting the successful_inserts counter.  An unknown table
is added to the Failed-Table Set and the call returns false; after the
loop, zero successes add the table to the Failed-Table Set and return
false, any other count returns true. -/
def populateTableAux (env : Env) (table : String) (hc : Bool) (st : PState) :
    (Except String (Nat × Bool)) × PState :=
  match alookup env.table_columns table with
  | none =>
    (Except.ok (0, false), { st with failed_tables := insertSet st.failed_tables table })
  | some cols =>
    match insertLoop env table cols hc env.num_records 0 st with
    | (Except.error e, st1) => (Except.error e, st1)
    | (Except.ok succ, st1) =>
      if succ < env.num_records then
        if succ = 0 then
          (Except.ok (succ, false),
            { st1 with failed_tables := insertSet st1.failed_tables table })
        else (Except.ok (succ, true), st1)
      else (Except.ok (succ, true), st1)

/-- _populate_table's boolean result. -/
def populateTable (env : Env) (table : String) (hc : Bool) (st : PState) :
    (Except String Bool) × PState :=
  match populateTableAux env table hc st with
  | (Except.ok p, st1) => (Except.ok p.2, st1)
  | (Except.error e, st1) => (Except.error e, st1)

/-- The for-attempt-in-range(10) loop of _try_partial_population:
return true on the first appended row. -/
def partialLoop (env : Env) (table : String) (cols : List Column) :
    Nat → PState → (Except String Bool) × PState
  | 0, st => (Except.ok false, st)
  | Nat.succ n, st =>
    match attemptInsert env table cols true st with
    | (Except.error e, st1) => (Except.error e, st1)
    | (Except.ok true, st1) => (Except.ok true, st1)
    | (Except.ok false, st1) => partialLoop env table cols n st1

/-- DatabasePopulator._try_partial_population (populator.py lines
354-416).  The source reads self.schema.table_columns[table] with a
plain dict subscript and no membership check, so a table absent from the
schema metadata raises KeyError; that uncaught exception is the
Except.error branch here. -/
def tryPartialPopulation (env : Env) (table : String) (st : PState) :
    (Except String Bool) × PState :=
  match alookup env.table_columns table with
  | none => (Except.error "KeyError", st)
  | some cols => partialLoop env table cols 10 st

/-- The inner for-table-in-tables_to_try loop of _handle_failed_tables,
accumulating the tables populated successfully in this iteration. -/
def tryTables (env : Env) : List String → List String → PState →
    (Except String (List String)) × PState
  | [], acc, st => (Except.ok acc, st)
  | t :: rest, acc, st =>
    match populateTable env t true st with
    | (Except.error e, st1) => (Except.error e, st1)
    | (Except.ok b, st1) => tryTables env rest (if b then acc ++ [t] else acc) st1

/-- The partial-population sweep of _handle_failed_tables: walk a
snapshot of the remaining set and remove each table whose
_try_partial_population succeeds. -/
def tryPartialAll (env : Env) : List String → List String → PState →
    (Except String (List String)) × PState
  | [], remaining, st => (Except.ok remaining, st)
  | t :: rest, remaining, st =>
    match tryPartialPopulation env t st with
    | (Except.error e, st1) => (Except.error e, st1)
    | (Except.ok b, st1) =>
        tryPartialAll env rest
          (if b then remaining.filter (fun x => x ≠ t) else remaining) st1

/-- The while loop of _handle_failed_tables.  The source loops while
the remaining set is non-empty and retry_count < max_retries,
incrementing retry_count at the top of each iteration; here fuel is
max_retries - retry_count, so the loop runs the same iterations.  The
result carries the remaining set and the final retry_count. -/
def repairLoop (env : Env) (remaining : List String) (retry : Nat) :
    Nat → PState → (Except String (List String × Nat)) × PState
  | 0, st => (Except.ok (remaining, retry), st)
  | Nat.succ fuel, st =>
    if remaining = [] then (Except.ok (remaining, retry), st)
    else
      match tryTables env (env.shuffle st.tick remaining) [] (bump st) with
      | (Except.error e, st1) => (Except.error e, st1)
      | (Except.ok succ, st1) =>
        if succ = [] ∧ remaining.filter (fun x => !(succ.contains x)) ≠ [] then
          match tryPartialAll env (remaining.filter (fun x => !(succ.contains x)))
              (remaining.filter (fun x => !(succ.contains x))) st1 with
          | (Except.error e, st2) => (Except.error e, st2)
          | (Except.ok remaining2, st2) =>
              repairLoop env remaining2 (retry + 1) fuel st2
        else repairLoop env (remaining.filter (fun x => !(succ.contains x)))
          (retry + 1) fuel st1

/-- DatabasePopulator._handle_failed_tables (populator.py lines
314-352): copy the failed set, run the bounded retry loop, and replace
the failed set with whatever remains.  The returned Nat is the final
retry_count of the source's loop counter. -/
def handleFailedTables (env : Env) (st : PState) : (Except String Nat) × PState :=
  match repairLoop env st.failed_tables 0 env.max_retries st with
  | (Except.error e, st1) => (Except.error e, st1)
  | (Except.ok (remaining, retry), st1) =>
      (Except.ok retry, { st1 with failed_tables := remaining })

/-- The two sentinel table names of the hard-coded special case. -/
def sentinels : List String := ["SyncSource", "SyncSource_LogAlert"]

/-- A table name that is not one of the two sentinels. -/
def nonSentinel (t : String) : Bool := !(sentinels.contains t)

/-- The special-case reordering of populate_database (populator.py lines
51-63): when both sentinel tables are present, remove them, put
SyncSource at the front and SyncSource_LogAlert at the end. -/
def specialReorder (l : List String) : List String :=
  if "SyncSource" ∈ l ∧ "SyncSource_LogAlert" ∈ l then
    let l1 := l.filter nonSentinel
    "SyncSource" :: (l1 ++ ["SyncSource_LogAlert"])
  else l

/-- A population pass over a list of tables (phase 1 and phase 2 of
populate_database). -/
def runTables (env : Env) (hc : Bool) : List String → PState →
    (Except String Unit) × PState
  | [], st => (Except.ok (), st)
  | t :: rest, st =>
    match populateTable env t hc st with
    | (Except.error e, st1) => (Except.error e, st1)
    | (Except.ok _, st1) => runTables env hc rest st1

/-- Phase 1 of populate_database: the reordered tables that are not in
the circular set. -/
def nonCircList (env : Env) : List String :=
  (specialReorder env.ordered_tables).filter (fun t => !(env.circular_tables.contains t))

/-- Phase 2 of populate_database: the reordered tables that are in the
circular set. -/
def circList (env : Env) : List String :=
  (specialReorder env.ordered_tables).filter (fun t => env.circular_tables.contains t)

/-- DatabasePopulator.populate_database (populator.py lines 29-92):
fail fast on schema analysis failure or an empty table order, apply the
sentinel reordering, run phase 1 over the non-circular tables, and —
only when the circular set is non-empty — run phase 2 over the circular
tables and, if the failed set is then non-empty, the repair engine.
Returns whether the failed set is empty at the end. -/
def populateDatabase (env : Env) (st : PState) : (Except String Bool) × PState :=
  if env.analyze_ok = false then (Except.ok false, st)
  else if env.ordered_tables = [] then (Except.ok false, st)
  else
    match runTables env false (nonCircList env) st with
    | (Except.error e, st1) => (Except.error e, st1)
    | (Except.ok _, st1) =>
      if env.circular_tables = [] then (Except.ok (st1.failed_tables = []), st1)
      else
        match runTables env true (circList env) st1 with
        | (Except.error e, st2) => (Except.error e, st2)
        | (Except.ok _, st2) =>
          if st2.failed_tables = [] then (Except.ok true, st2)
          else
            match handleFailedTables env st2 with
            | (Except.error e, st3) => (Except.error e, st3)
            | (Except.ok _, st3) => (Except.ok (st3.failed_tables = []), st3)

/-- Store growth preorder: every table's row store in st' extends the
one in st by a (possibly empty) list of appended rows. -/
def StoreLE (st st' : PState) : Prop :=
  ∀ t, ∃ l, getRows st' t = getRows st t ++ l

/-! Concrete schemas and oracle environments used to exercise the
embedding on explicit inputs. -/

/-- A plain NOT NULL integer column named x. -/
def colX : Column :=
  { column_name := "x", data_type := "int", is_nullable := "NO",
    column_key := "", extra := "" }

/-- An integer primary-key column (upper-case declared type, as MySQL
metadata reports it). -/
def colPK : Column :=
  { column_name := "id", data_type := "INT", is_nullable := "NO",
    column_key := "PRI", extra := "" }

/-- A string primary-key column. -/
def colSPK : Column :=
  { column_name := "code", data_type := "varchar", is_nullable := "NO",
    column_key := "PRI", extra := "" }

/-- An auto-increment integer column. -/
def colAI : Column :=
  { column_name := "id", data_type := "int", is_nullable := "NO",
    column_key := "PRI", extra := "auto_increment" }

/-- A NOT NULL foreign-key column of table A referencing B.id. -/
def colBId : Column :=
  { column_name := "b_id", data_type := "int", is_nullable := "NO",
    column_key := "", extra := "" }

/-- The foreign-key descriptor of colBId. -/
def fkB : FK :=
  { column := "b_id", referenced_table := "B", referenced_column := "id",
    is_nullable := none }

/-- Base concrete environment: one table T with the single plain column
x, no foreign keys, one record per table, trivially deterministic
oracles (inserts always succeed, probes return nothing, random picks
the first element / the lower bound, shuffle is the identity). -/
def envA : Env :=
  { table_columns := [("T", [colX])]
  , foreign_keys := []
  , num_records := 1
  , max_retries := 5
  , analyze_ok := true
  , ordered_tables := ["T"]
  , circular_tables := []
  , insertOk := fun _ => true
  , lastId := fun _ => none
  , probe := fun _ => none
  , probeInts := fun _ => none
  , choice := fun _ _ => 0
  , randint := fun _ lo _ => lo
  , shuffle := fun _ l => l
  , genValue := fun _ _ _ => Value.vstr "gen" }

/-- EnvOk for envA. -/
theorem envA_ok : EnvOk envA := by
  refine ⟨?_, ?_, ?_, ?_⟩
  · intro t n h; exact h
  · intro t lo hi _; exact Nat.le_refl lo
  · intro t lo hi h; exact h
  · intro t l x h; exact h

/-- Environment whose insert calls fail until tick 4 and succeed from
then on: the phase-1 insert of table T (at tick 1) fails, while the
insert the repair engine would issue (at tick 4) succeeds. -/
def envC1 : Env := { envA with insertOk := fun t => decide (4 ≤ t) }

/-- Environment whose schema analysis fails. -/
def envC2bad : Env := { envA with analyze_ok := false }

/-- Environment for the foreign-key probe counterexample: table A has
the single NOT NULL FK column b_id referencing B.id, B's row store is
empty, and the direct SELECT probe of B returns the value 42. -/
def envC3 : Env :=
  { envA with
      table_columns := [("A", [colBId]), ("B", [colPK])]
    , foreign_keys := [("A", [fkB])]
    , ordered_tables := ["A", "B"]
    , probe := fun _ => some [Value.vint 42] }

/-- Environment with a target record count of zero. -/
def envC4 : Env := { envA with num_records := 0 }

/-- Environment for the unknown-table exception: table Ghost appears in
the insertion order and the circular set but is absent from the schema
metadata, so the repair engine reaches _try_partial_population on it. -/
def envC6 : Env :=
  { envA with
      table_columns := [("A", [colX])]
    , ordered_tables := ["A", "Ghost"]
    , circular_tables := ["Ghost"] }

/-- Environment whose inserts always fail: any table keeps failing
through every repair iteration. -/
def envFail : Env := { envA with insertOk := fun _ => false }

/-- A state in which table T has already been marked failed. -/
def stT : PState := { initState with failed_tables := ["T"] }

/-- A state whose store holds one committed row for table B. -/
def stB : PState :=
  { initState with inserted_data := [("B", [[("id", Value.vint 7)]])] }

/-! Basic lemmas about the store and the failed set. -/

theorem alookup_setRows (l : List (String × List Row)) (t : String) (rs : List Row)
    (t2 : String) :
    alookup (setRows l t rs) t2 = if t2 = t then some rs else alookup l t2 := by
  induction l with
  | nil =>
    by_cases h : t2 = t <;> simp [setRows, alookup, h]
  | cons p rest ih =>
    obtain ⟨k, v⟩ := p
    by_cases hkt : k = t
    · subst hkt
      by_cases h2 : t2 = k <;> simp [setRows, alookup, h2]
    · by_cases h2 : t2 = t
      · subst h2
        have hne : ¬ t2 = k := fun hh => hkt hh.symm
        simp [setRows, alookup, hkt, hne, ih]
      · by_cases h3 : t2 = k <;> simp [setRows, alookup, hkt, h2, h3, ih]

theorem getRows_eq_of_data_eq {st st' : PState}
    (h : st'.inserted_data = st.inserted_data) (t : String) :
    getRows st' t = getRows st t := by
  unfold getRows; rw [h]

theorem getRows_appendRow (st : PState) (t : String) (r : Row) (t2 : String) :
    getRows (appendRow st t r) t2 =
      if t2 = t then getRows st t ++ [r] else getRows st t2 := by
  unfold getRows appendRow
  simp only [alookup_setRows]
  by_cases h : t2 = t <;> simp [h, getRows]

theorem StoreLE.refl (st : PState) : StoreLE st st := by
  intro t; exact ⟨[], (List.append_nil _).symm⟩

theorem StoreLE.trans {s1 s2 s3 : PState} (h1 : StoreLE s1 s2) (h2 : StoreLE s2 s3) :
    StoreLE s1 s3 := by
  intro t
  obtain ⟨l1, e1⟩ := h1 t
  obtain ⟨l2, e2⟩ := h2 t
  exact ⟨l1 ++ l2, by rw [e2, e1, List.append_assoc]⟩

theorem StoreLE.of_data_eq {st st' : PState}
    (h : st'.inserted_data = st.inserted_data) : StoreLE st st' := by
  intro t
  exact ⟨[], by rw [getRows_eq_of_data_eq h, List.append_nil]⟩

theorem StoreLE.appendRow (st : PState) (t : String) (r : Row) :
    StoreLE st (appendRow st t r) := by
  intro t2
  rw [getRows_appendRow]
  by_cases h : t2 = t
  · subst h; exact ⟨[r], by simp⟩
  · rw [if_neg h]; exact ⟨[], by simp⟩

theorem insertSet_of_mem {l : List String} {t : String} (h : t ∈ l) :
    insertSet l t = l := by
  simp [insertSet, h]

theorem mem_insertSet {l : List String} {t x : String}
    (h : x ∈ insertSet l t) : x ∈ l ∨ x = t := by
  unfold insertSet at h
  by_cases hm : t ∈ l
  · rw [if_pos hm] at h
    exact Or.inl h
  · rw [if_neg hm] at h
    rcases List.mem_append.1 h with h1 | h1
    · exact Or.inl h1
    · exact Or.inr (List.mem_singleton.1 h1)

/-! State-preservation lemmas for the row-generation chain: generating a
row issues oracle calls (advancing the tick, possibly caching the
SyncSource pool) but never touches the row store or the failed set. -/

theorem resolveColumnMain_state (env : Env) (table : String) (col : Column)
    (hc : Bool) (st : PState) :
    (resolveColumnMain env table col hc st).2.inserted_data = st.inserted_data ∧
    (resolveColumnMain env table col hc st).2.failed_tables = st.failed_tables ∧
    (resolveColumnMain env table col hc st).2.sync_source_ids = st.sync_source_ids := by
  unfold resolveColumnMain
  (repeat' split) <;> exact ⟨rfl, rfl, rfl⟩

theorem resolveColumn_state (env : Env) (table : String) (col : Column)
    (hc : Bool) (st : PState) :
    (resolveColumn env table col hc st).2.inserted_data = st.inserted_data ∧
    (resolveColumn env table col hc st).2.failed_tables = st.failed_tables ∧
    (resolveColumn env table col hc st).2.sync_source_ids = st.sync_source_ids := by
  unfold resolveColumn
  split
  · exact ⟨rfl, rfl, rfl⟩
  · exact resolveColumnMain_state env table col hc st

theorem resolveColumns_state (env : Env) (table : String) (cols : List Column)
    (hc : Bool) (row : Row) (st : PState) :
    (resolveColumns env table cols hc row st).2.inserted_data = st.inserted_data ∧
    (resolveColumns env table cols hc row st).2.failed_tables = st.failed_tables := by
  induction cols generalizing row st with
  | nil => exact ⟨rfl, rfl⟩
  | cons col rest ih =>
    have h := resolveColumn_state env table col hc st
    unfold resolveColumns
    cases hrc : resolveColumn env table col hc st with
    | mk r st1 =>
      rw [hrc] at h
      cases r with
      | ok v =>
        have h2 := ih (setv row col.column_name v) st1
        exact ⟨h2.1.trans h.1, h2.2.trans h.2.1⟩
      | error e => exact ⟨h.1, h.2.1⟩

theorem refreshPool_state (env : Env) (table : String) (st : PState) :
    (refreshPool env table st).inserted_data = st.inserted_data ∧
    (refreshPool env table st).failed_tables = st.failed_tables := by
  unfold refreshPool
  (repeat' split) <;> exact ⟨rfl, rfl⟩

theorem generateRowData_state (env : Env) (table : String) (cols : List Column)
    (hc : Bool) (st : PState) :
    (generateRowData env table cols hc st).2.inserted_data = st.inserted_data ∧
    (generateRowData env table cols hc st).2.failed_tables = st.failed_tables := by
  unfold generateRowData
  have h1 := refreshPool_state env table st
  have h2 := resolveColumns_state env table cols hc [] (refreshPool env table st)
  exact ⟨h2.1.trans h1.1, h2.2.trans h1.2⟩

/-! State lemmas for the insert attempt: the failed set is untouched and
the store can only gain appended rows. -/

theorem appendRow_failed (st : PState) (t : String) (r : Row) :
    (appendRow st t r).failed_tables = st.failed_tables := rfl

theorem backfillStep_state (env : Env) (col : Column) (row : Row) (st : PState) :
    (backfillStep env col row st).2.inserted_data = st.inserted_data ∧
    (backfillStep env col row st).2.failed_tables = st.failed_tables := by
  unfold backfillStep
  (repeat' split) <;> exact ⟨rfl, rfl⟩

theorem backfillColumns_state (env : Env) (cols : List Column) (row : Row)
    (st : PState) :
    (backfillColumns env cols row st).2.inserted_data = st.inserted_data ∧
    (backfillColumns env cols row st).2.failed_tables = st.failed_tables := by
  induction cols generalizing row st with
  | nil => exact ⟨rfl, rfl⟩
  | cons col rest ih =>
    unfold backfillColumns
    have h1 := backfillStep_state env col row st
    have h2 := ih (backfillStep env col row st).1 (backfillStep env col row st).2
    exact ⟨h2.1.trans h1.1, h2.2.trans h1.2⟩

theorem attemptInsert_eq_err (env : Env) (table : String) (cols : List Column)
    (hc : Bool) (st st1 : PState) (e : String)
    (hge : generateRowData env table cols hc st = (Except.error e, st1)) :
    attemptInsert env table cols hc st = (Except.error e, st1) := by
  unfold attemptInsert
  rw [hge]

theorem attemptInsert_eq_ok (env : Env) (table : String) (cols : List Column)
    (hc : Bool) (st st1 : PState) (row : Row)
    (hge : generateRowData env table cols hc st = (Except.ok row, st1)) :
    attemptInsert env table cols hc st =
      if env.insertOk st1.tick = true then
        (Except.ok true,
          appendRow (backfillColumns env cols row (bump st1)).2 table
            (backfillColumns env cols row (bump st1)).1)
      else (Except.ok false, bump st1) := by
  unfold attemptInsert
  rw [hge]

theorem attemptInsert_failed (env : Env) (table : String) (cols : List Column)
    (hc : Bool) (st : PState) :
    (attemptInsert env table cols hc st).2.failed_tables = st.failed_tables := by
  have hg := generateRowData_state env table cols hc st
  cases hge : generateRowData env table cols hc st with
  | mk r st1 =>
    rw [hge] at hg
    cases r with
    | error e =>
      rw [attemptInsert_eq_err env table cols hc st st1 e hge]
      exact hg.2
    | ok row =>
      rw [attemptInsert_eq_ok env table cols hc st st1 row hge]
      by_cases hio : env.insertOk st1.tick = true
      · rw [if_pos hio]
        have hb := backfillColumns_state env cols row (bump st1)
        exact (appendRow_failed _ _ _).trans (hb.2.trans hg.2)
      · rw [if_neg hio]
        exact hg.2

theorem attemptInsert_storeLE (env : Env) (table : String) (cols : List Column)
    (hc : Bool) (st : PState) :
    StoreLE st (attemptInsert env table cols hc st).2 := by
  have hg := generateRowData_state env table cols hc st
  cases hge : generateRowData env table cols hc st with
  | mk r st1 =>
    rw [hge] at hg
    cases r with
    | error e =>
      rw [attemptInsert_eq_err env table cols hc st st1 e hge]
      exact StoreLE.of_data_eq hg.1
    | ok row =>
      rw [attemptInsert_eq_ok env table cols hc st st1 row hge]
      by_cases hio : env.insertOk st1.tick = true
      · rw [if_pos hio]
        have hb := backfillColumns_state env cols row (bump st1)
        have h1 : StoreLE st (backfillColumns env cols row (bump st1)).2 :=
          StoreLE.of_data_eq (hb.1.trans hg.1)
        exact StoreLE.trans h1 (StoreLE.appendRow _ _ _)
      · rw [if_neg hio]
        exact StoreLE.of_data_eq hg.1

theorem insertLoop_state (env : Env) (table : String) (cols : List Column)
    (hc : Bool) :
    ∀ (n succ : Nat) (st : PState),
      (insertLoop env table cols hc n succ st).2.failed_tables = st.failed_tables ∧
      StoreLE st (insertLoop env table cols hc n succ st).2 := by
  intro n
  induction n with
  | zero => intro succ st; exact ⟨rfl, StoreLE.refl st⟩
  | succ n ih =>
    intro succ st
    unfold insertLoop
    have hf := attemptInsert_failed env table cols hc st
    have hs := attemptInsert_storeLE env table cols hc st
    cases hai : attemptInsert env table cols hc st with
    | mk r st1 =>
      rw [hai] at hf hs
      cases r with
      | error e => exact ⟨hf, hs⟩
      | ok b =>
        have h2 := ih (if b then succ + 1 else succ) st1
        exact ⟨h2.1.trans hf, StoreLE.trans hs h2.2⟩

theorem populateTableAux_eq_none (env : Env) (table : String) (hc : Bool)
    (st : PState) (htc : alookup env.table_columns table = none) :
    populateTableAux env table hc st =
      (Except.ok (0, false),
        { st with failed_tables := insertSet st.failed_tables table }) := by
  unfold populateTableAux
  rw [htc]

theorem populateTableAux_eq_err (env : Env) (table : String) (hc : Bool)
    (st st1 : PState) (cols : List Column) (e : String)
    (htc : alookup env.table_columns table = some cols)
    (hil : insertLoop env table cols hc env.num_records 0 st = (Except.error e, st1)) :
    populateTableAux env table hc st = (Except.error e, st1) := by
  unfold populateTableAux
  simp only [htc, hil]

theorem populateTableAux_eq_ok (env : Env) (table : String) (hc : Bool)
    (st st1 : PState) (cols : List Column) (succ : Nat)
    (htc : alookup env.table_columns table = some cols)
    (hil : insertLoop env table cols hc env.num_records 0 st = (Except.ok succ, st1)) :
    populateTableAux env table hc st =
      if succ < env.num_records then
        if succ = 0 then
          (Except.ok (succ, false),
            { st1 with failed_tables := insertSet st1.failed_tables table })
        else (Except.ok (succ, true), st1)
      else (Except.ok (succ, true), st1) := by
  unfold populateTableAux
  simp only [htc, hil]

theorem populateTableAux_failed (env : Env) (table : String) (hc : Bool)
    (st : PState) :
    (populateTableAux env table hc st).2.failed_tables = st.failed_tables ∨
    (populateTableAux env table hc st).2.failed_tables =
      insertSet st.failed_tables table := by
  cases htc : alookup env.table_columns table with
  | none => rw [populateTableAux_eq_none env table hc st htc]; exact Or.inr rfl
  | some cols =>
    have h := insertLoop_state env table cols hc env.num_records 0 st
    cases hil : insertLoop env table cols hc env.num_records 0 st with
    | mk r st1 =>
      rw [hil] at h
      cases r with
      | error e =>
        rw [populateTableAux_eq_err env table hc st st1 cols e htc hil]
        exact Or.inl h.1
      | ok succ =>
        rw [populateTableAux_eq_ok env table hc st st1 cols succ htc hil]
        by_cases h1 : succ < env.num_records
        · rw [if_pos h1]
          by_cases h2 : succ = 0
          · rw [if_pos h2]
            refine Or.inr ?_
            show insertSet st1.failed_tables table = insertSet st.failed_tables table
            rw [h.1]
          · rw [if_neg h2]; exact Or.inl h.1
        · rw [if_neg h1]; exact Or.inl h.1

theorem populateTableAux_storeLE (env : Env) (table : String) (hc : Bool)
    (st : PState) :
    StoreLE st (populateTableAux env table hc st).2 := by
  cases htc : alookup env.table_columns table with
  | none =>
    rw [populateTableAux_eq_none env table hc st htc]
    exact StoreLE.of_data_eq rfl
  | some cols =>
    have h := insertLoop_state env table cols hc env.num_records 0 st
    cases hil : insertLoop env table cols hc env.num_records 0 st with
    | mk r st1 =>
      rw [hil] at h
      cases r with
      | error e =>
        rw [populateTableAux_eq_err env table hc st st1 cols e htc hil]
        exact h.2
      | ok succ =>
        rw [populateTableAux_eq_ok env table hc st st1 cols succ htc hil]
        by_cases h1 : succ < env.num_records
        · rw [if_pos h1]
          by_cases h2 : succ = 0
          · rw [if_pos h2]
            exact StoreLE.trans h.2 (StoreLE.of_data_eq rfl)
          · rw [if_neg h2]; exact h.2
        · rw [if_neg h1]; exact h.2

theorem populateTable_failed (env : Env) (table : String) (hc : Bool)
    (st : PState) :
    (populateTable env table hc st).2.failed_tables = st.failed_tables ∨
    (populateTable env table hc st).2.failed_tables =
      insertSet st.failed_tables table := by
  unfold populateTable
  have h := populateTableAux_failed env table hc st
  cases hpa : populateTableAux env table hc st with
  | mk r st1 =>
    rw [hpa] at h
    cases r with
    | error e => exact h
    | ok p => exact h

theorem populateTable_storeLE (env : Env) (table : String) (hc : Bool)
    (st : PState) :
    StoreLE st (populateTable env table hc st).2 := by
  unfold populateTable
  have h := populateTableAux_storeLE env table hc st
  cases hpa : populateTableAux env table hc st with
  | mk r st1 =>
    rw [hpa] at h
    cases r with
    | error e => exact h
    | ok p => exact h

theorem populateTable_failed_of_mem (env : Env) (table : String) (hc : Bool)
    (st : PState) (h : table ∈ st.failed_tables) :
    (populateTable env table hc st).2.failed_tables = st.failed_tables := by
  rcases populateTable_failed env table hc st with h1 | h1
  · exact h1
  · rw [h1, insertSet_of_mem h]

/-! State lemmas for the partial-population attempt and the passes. -/

theorem partialLoop_state (env : Env) (table : String) (cols : List Column) :
    ∀ (n : Nat) (st : PState),
      (partialLoop env table cols n st).2.failed_tables = st.failed_tables ∧
      StoreLE st (partialLoop env table cols n st).2 := by
  intro n
  induction n with
  | zero => intro st; exact ⟨rfl, StoreLE.refl st⟩
  | succ n ih =>
    intro st
    unfold partialLoop
    have hf := attemptInsert_failed env table cols true st
    have hs := attemptInsert_storeLE env table cols true st
    cases hai : attemptInsert env table cols true st with
    | mk r st1 =>
      rw [hai] at hf hs
      cases r with
      | error e => exact ⟨hf, hs⟩
      | ok b =>
        cases b with
        | true => exact ⟨hf, hs⟩
        | false =>
          have h2 := ih st1
          exact ⟨h2.1.trans hf, StoreLE.trans hs h2.2⟩

theorem tryPartialPopulation_state (env : Env) (table : String) (st : PState) :
    (tryPartialPopulation env table st).2.failed_tables = st.failed_tables ∧
    StoreLE st (tryPartialPopulation env table st).2 := by
  unfold tryPartialPopulation
  cases htc : alookup env.table_columns table with
  | none => exact ⟨rfl, StoreLE.refl st⟩
  | some cols => exact partialLoop_state env table cols 10 st

theorem runTables_storeLE (env : Env) (hc : Bool) :
    ∀ (ts : List String) (st : PState), StoreLE st (runTables env hc ts st).2 := by
  intro ts
  induction ts with
  | nil => intro st; exact StoreLE.refl st
  | cons t rest ih =>
    intro st
    unfold runTables
    have hs := populateTable_storeLE env t hc st
    cases hp : populateTable env t hc st with
    | mk r st1 =>
      rw [hp] at hs
      cases r with
      | error e => exact hs
      | ok b => exact StoreLE.trans hs (ih st1)

theorem tryTables_storeLE (env : Env) :
    ∀ (ts acc : List String) (st : PState),
      StoreLE st (tryTables env ts acc st).2 := by
  intro ts
  induction ts with
  | nil => intro acc st; exact StoreLE.refl st
  | cons t rest ih =>
    intro acc st
    unfold tryTables
    have hs := populateTable_storeLE env t true st
    cases hp : populateTable env t true st with
    | mk r st1 =>
      rw [hp] at hs
      cases r with
      | error e => exact hs
      | ok b => exact StoreLE.trans hs (ih (if b then acc ++ [t] else acc) st1)

theorem tryTables_failed (env : Env) :
    ∀ (ts acc : List String) (st : PState),
      (∀ x ∈ ts, x ∈ st.failed_tables) →
      (tryTables env ts acc st).2.failed_tables = st.failed_tables := by
  intro ts
  induction ts with
  | nil => intro acc st _; rfl
  | cons t rest ih =>
    intro acc st h
    unfold tryTables
    have hpt := populateTable_failed_of_mem env t true st (h t (List.mem_cons_self t rest))
    cases hp : populateTable env t true st with
    | mk r st1 =>
      rw [hp] at hpt
      cases r with
      | error e => exact hpt
      | ok b =>
        have h2 := ih (if b then acc ++ [t] else acc) st1
          (fun x hx => by rw [hpt]; exact h x (List.mem_cons_of_mem t hx))
        exact h2.trans hpt

theorem tryPartialAll_failed (env : Env) :
    ∀ (snap rem : List String) (st : PState),
      (tryPartialAll env snap rem st).2.failed_tables = st.failed_tables := by
  intro snap
  induction snap with
  | nil => intro rem st; rfl
  | cons t rest ih =>
    intro rem st
    unfold tryPartialAll
    have htp := tryPartialPopulation_state env t st
    cases hp : tryPartialPopulation env t st with
    | mk r st1 =>
      rw [hp] at htp
      cases r with
      | error e => exact htp.1
      | ok b =>
        have h2 := ih (if b then rem.filter (fun x => x ≠ t) else rem) st1
        exact h2.trans htp.1

theorem tryPartialAll_storeLE (env : Env) :
    ∀ (snap rem : List String) (st : PState),
      StoreLE st (tryPartialAll env snap rem st).2 := by
  intro snap
  induction snap with
  | nil => intro rem st; exact StoreLE.refl st
  | cons t rest ih =>
    intro rem st
    unfold tryPartialAll
    have htp := tryPartialPopulation_state env t st
    cases hp : tryPartialPopulation env t st with
    | mk r st1 =>
      rw [hp] at htp
      cases r with
      | error e => exact htp.2
      | ok b =>
        exact StoreLE.trans htp.2 (ih (if b then rem.filter (fun x => x ≠ t) else rem) st1)

theorem tryPartialAll_sub (env : Env) :
    ∀ (snap rem : List String) (st : PState) (rem2 : List String) (st' : PState),
      tryPartialAll env snap rem st = (Except.ok rem2, st') →
      ∀ x ∈ rem2, x ∈ rem := by
  intro snap
  induction snap with
  | nil =>
    intro rem st rem2 st' h x hx
    have h' : ((Except.ok rem : Except String (List String)), st) = (Except.ok rem2, st') := h
    simp only [Prod.mk.injEq, Except.ok.injEq] at h'
    rw [h'.1]
    exact hx
  | cons t rest ih =>
    intro rem st rem2 st' h x hx
    unfold tryPartialAll at h
    cases hp : tryPartialPopulation env t st with
    | mk r st1 =>
      rw [hp] at h
      cases r with
      | error e =>
        have h' : ((Except.error e : Except String (List String)), st1) =
            (Except.ok rem2, st') := h
        simp only [Prod.mk.injEq] at h'
        exact absurd h'.1 (by simp)
      | ok b =>
        have h' : tryPartialAll env rest
            (if b then rem.filter (fun y => y ≠ t) else rem) st1 = (Except.ok rem2, st') := h
        have hmem := ih _ st1 rem2 st' h' x hx
        cases b with
        | true => exact (List.mem_filter.1 hmem).1
        | false => exact hmem

/-! Equation lemmas and invariants for the bounded repair loop. -/

theorem repairLoop_eq_stop (env : Env) (remaining : List String) (retry fuel : Nat)
    (st : PState) (hrem : remaining = []) :
    repairLoop env remaining retry (fuel + 1) st = (Except.ok (remaining, retry), st) := by
  unfold repairLoop
  rw [if_pos hrem]

theorem repairLoop_eq_err (env : Env) (remaining : List String) (retry fuel : Nat)
    (st st1 : PState) (e : String) (hrem : remaining ≠ [])
    (htt : tryTables env (env.shuffle st.tick remaining) [] (bump st) =
      (Except.error e, st1)) :
    repairLoop env remaining retry (fuel + 1) st = (Except.error e, st1) := by
  unfold repairLoop
  rw [if_neg hrem]
  simp only [htt]

theorem repairLoop_eq_partial_err (env : Env) (remaining : List String)
    (retry fuel : Nat) (st st1 st2 : PState) (succ : List String) (e : String)
    (hrem : remaining ≠ [])
    (htt : tryTables env (env.shuffle st.tick remaining) [] (bump st) =
      (Except.ok succ, st1))
    (hcond : succ = [] ∧ remaining.filter (fun x => !(succ.contains x)) ≠ [])
    (hpa : tryPartialAll env (remaining.filter (fun x => !(succ.contains x)))
      (remaining.filter (fun x => !(succ.contains x))) st1 = (Except.error e, st2)) :
    repairLoop env remaining retry (fuel + 1) st = (Except.error e, st2) := by
  unfold repairLoop
  rw [if_neg hrem]
  simp only [htt]
  rw [if_pos hcond]
  simp only [hpa]

theorem repairLoop_eq_partial_ok (env : Env) (remaining : List String)
    (retry fuel : Nat) (st st1 st2 : PState) (succ rem2 : List String)
    (hrem : remaining ≠ [])
    (htt : tryTables env (env.shuffle st.tick remaining) [] (bump st) =
      (Except.ok succ, st1))
    (hcond : succ = [] ∧ remaining.filter (fun x => !(succ.contains x)) ≠ [])
    (hpa : tryPartialAll env (remaining.filter (fun x => !(succ.contains x)))
      (remaining.filter (fun x => !(succ.contains x))) st1 = (Except.ok rem2, st2)) :
    repairLoop env remaining retry (fuel + 1) st =
      repairLoop env rem2 (retry + 1) fuel st2 := by
  conv_lhs => unfold repairLoop
  rw [if_neg hrem]
  simp only [htt]
  rw [if_pos hcond]
  simp only [hpa]

theorem repairLoop_eq_noPartial (env : Env) (remaining : List String)
    (retry fuel : Nat) (st st1 : PState) (succ : List String)
    (hrem : remaining ≠ [])
    (htt : tryTables env (env.shuffle st.tick remaining) [] (bump st) =
      (Except.ok succ, st1))
    (hcond : ¬ (succ = [] ∧ remaining.filter (fun x => !(succ.contains x)) ≠ [])) :
    repairLoop env remaining retry (fuel + 1) st =
      repairLoop env (remaining.filter (fun x => !(succ.contains x)))
        (retry + 1) fuel st1 := by
  conv_lhs => unfold repairLoop
  rw [if_neg hrem]
  simp only [htt]
  rw [if_neg hcond]

theorem repairLoop_spec (env : Env) (henv : EnvOk env) :
    ∀ (fuel : Nat) (remaining : List String) (retry : Nat) (st : PState),
      (∀ x ∈ remaining, x ∈ st.failed_tables) →
      (repairLoop env remaining retry fuel st).2.failed_tables = st.failed_tables ∧
      (∀ rem rc, (repairLoop env remaining retry fuel st).1 = Except.ok (rem, rc) →
        (∀ x ∈ rem, x ∈ remaining) ∧ rc ≤ retry + fuel) := by
  intro fuel
  induction fuel with
  | zero =>
    intro remaining retry st _
    refine ⟨rfl, ?_⟩
    intro rem rc h
    have h' : (Except.ok (remaining, retry) : Except String (List String × Nat)) =
      Except.ok (rem, rc) := h
    simp only [Except.ok.injEq, Prod.mk.injEq] at h'
    obtain ⟨h1, h2⟩ := h'
    subst h1; subst h2
    exact ⟨fun x hx => hx, Nat.le_refl retry⟩
  | succ fuel ih =>
    intro remaining retry st hsub
    by_cases hrem : remaining = []
    · rw [repairLoop_eq_stop env remaining retry fuel st hrem]
      refine ⟨rfl, ?_⟩
      intro rem rc h
      have h' : (Except.ok (remaining, retry) : Except String (List String × Nat)) =
        Except.ok (rem, rc) := h
      simp only [Except.ok.injEq, Prod.mk.injEq] at h'
      obtain ⟨h1, h2⟩ := h'
      subst h1; subst h2
      exact ⟨fun x hx => hx, Nat.le_add_right retry (fuel + 1)⟩
    · have hshuf : ∀ x ∈ env.shuffle st.tick remaining, x ∈ (bump st).failed_tables :=
        fun x hx => hsub x (henv.shuffle_mem st.tick remaining x hx)
      have htf := tryTables_failed env (env.shuffle st.tick remaining) [] (bump st) hshuf
      cases htt : tryTables env (env.shuffle st.tick remaining) [] (bump st) with
      | mk r st1 =>
        rw [htt] at htf
        cases r with
        | error e =>
          rw [repairLoop_eq_err env remaining retry fuel st st1 e hrem htt]
          refine ⟨htf, ?_⟩
          intro rem rc h
          have h' : (Except.error e : Except String (List String × Nat)) =
            Except.ok (rem, rc) := h
          exact absurd h' (by simp)
        | ok succ =>
          have hfsub : ∀ x ∈ remaining.filter (fun y => !(succ.contains y)), x ∈ remaining :=
            fun x hx => (List.mem_filter.1 hx).1
          by_cases hcond : succ = [] ∧ remaining.filter (fun x => !(succ.contains x)) ≠ []
          · have hpaf := tryPartialAll_failed env
              (remaining.filter (fun x => !(succ.contains x)))
              (remaining.filter (fun x => !(succ.contains x))) st1
            cases hpa : tryPartialAll env (remaining.filter (fun x => !(succ.contains x)))
                (remaining.filter (fun x => !(succ.contains x))) st1 with
            | mk r2 st2 =>
              rw [hpa] at hpaf
              cases r2 with
              | error e =>
                rw [repairLoop_eq_partial_err env remaining retry fuel st st1 st2 succ e
                  hrem htt hcond hpa]
                refine ⟨hpaf.trans htf, ?_⟩
                intro rem rc h
                have h' : (Except.error e : Except String (List String × Nat)) =
                  Except.ok (rem, rc) := h
                exact absurd h' (by simp)
              | ok rem2 =>
                rw [repairLoop_eq_partial_ok env remaining retry fuel st st1 st2 succ rem2
                  hrem htt hcond hpa]
                have hst2 : st2.failed_tables = st.failed_tables := hpaf.trans htf
                have hrem2sub : ∀ x ∈ rem2, x ∈ st2.failed_tables := by
                  intro x hx
                  rw [hst2]
                  exact hsub x (hfsub x (tryPartialAll_sub env _ _ st1 rem2 st2 hpa x hx))
                obtain ⟨hA, hB⟩ := ih rem2 (retry + 1) st2 hrem2sub
                refine ⟨hA.trans hst2, ?_⟩
                intro rem rc h
                obtain ⟨hB1, hB2⟩ := hB rem rc h
                refine ⟨fun x hx => hfsub x
                  (tryPartialAll_sub env _ _ st1 rem2 st2 hpa x (hB1 x hx)), ?_⟩
                omega
          · rw [repairLoop_eq_noPartial env remaining retry fuel st st1 succ hrem htt hcond]
            have hrsub : ∀ x ∈ remaining.filter (fun y => !(succ.contains y)),
                x ∈ st1.failed_tables := by
              intro x hx
              rw [htf]
              exact hsub x (hfsub x hx)
            obtain ⟨hA, hB⟩ := ih (remaining.filter (fun y => !(succ.contains y)))
              (retry + 1) st1 hrsub
            refine ⟨hA.trans htf, ?_⟩
            intro rem rc h
            obtain ⟨hB1, hB2⟩ := hB rem rc h
            refine ⟨fun x hx => hfsub x (hB1 x hx), ?_⟩
            omega

theorem repairLoop_storeLE (env : Env) :
    ∀ (fuel : Nat) (remaining : List String) (retry : Nat) (st : PState),
      StoreLE st (repairLoop env remaining retry fuel st).2 := by
  intro fuel
  induction fuel with
  | zero => intro remaining retry st; exact StoreLE.refl st
  | succ fuel ih =>
    intro remaining retry st
    by_cases hrem : remaining = []
    · rw [repairLoop_eq_stop env remaining retry fuel st hrem]
      exact StoreLE.refl st
    · have hts := tryTables_storeLE env (env.shuffle st.tick remaining) [] (bump st)
      cases htt : tryTables env (env.shuffle st.tick remaining) [] (bump st) with
      | mk r st1 =>
        rw [htt] at hts
        have hts0 : StoreLE st st1 := StoreLE.trans (StoreLE.of_data_eq rfl) hts
        cases r with
        | error e =>
          rw [repairLoop_eq_err env remaining retry fuel st st1 e hrem htt]
          exact hts0
        | ok succ =>
          by_cases hcond : succ = [] ∧ remaining.filter (fun x => !(succ.contains x)) ≠ []
          · have hpas := tryPartialAll_storeLE env
              (remaining.filter (fun x => !(succ.contains x)))
              (remaining.filter (fun x => !(succ.contains x))) st1
            cases hpa : tryPartialAll env (remaining.filter (fun x => !(succ.contains x)))
                (remaining.filter (fun x => !(succ.contains x))) st1 with
            | mk r2 st2 =>
              rw [hpa] at hpas
              cases r2 with
              | error e =>
                rw [repairLoop_eq_partial_err env remaining retry fuel st st1 st2 succ e
                  hrem htt hcond hpa]
                exact StoreLE.trans hts0 hpas
              | ok rem2 =>
                rw [repairLoop_eq_partial_ok env remaining retry fuel st st1 st2 succ rem2
                  hrem htt hcond hpa]
                exact StoreLE.trans (StoreLE.trans hts0 hpas) (ih rem2 (retry + 1) st2)
          · rw [repairLoop_eq_noPartial env remaining retry fuel st st1 succ hrem htt hcond]
            exact StoreLE.trans hts0
              (ih (remaining.filter (fun x => !(succ.contains x))) (retry + 1) st1)

theorem handleFailedTables_eq_err (env : Env) (st st1 : PState) (e : String)
    (h : repairLoop env st.failed_tables 0 env.max_retries st = (Except.error e, st1)) :
    handleFailedTables env st = (Except.error e, st1) := by
  unfold handleFailedTables
  rw [h]

theorem handleFailedTables_eq_ok (env : Env) (st st1 : PState)
    (rem : List String) (rc : Nat)
    (h : repairLoop env st.failed_tables 0 env.max_retries st =
      (Except.ok (rem, rc), st1)) :
    handleFailedTables env st = (Except.ok rc, { st1 with failed_tables := rem }) := by
  unfold handleFailedTables
  rw [h]

theorem handleFailedTables_spec (env : Env) (henv : EnvOk env) (st : PState) :
    (∀ t ∈ (handleFailedTables env st).2.failed_tables, t ∈ st.failed_tables) ∧
    (∀ rc, (handleFailedTables env st).1 = Except.ok rc → rc ≤ env.max_retries) ∧
    StoreLE st (handleFailedTables env st).2 := by
  have hsub : ∀ x ∈ st.failed_tables, x ∈ st.failed_tables := fun x hx => hx
  have hspec := repairLoop_spec env henv env.max_retries st.failed_tables 0 st hsub
  have hsle := repairLoop_storeLE env env.max_retries st.failed_tables 0 st
  cases hrl : repairLoop env st.failed_tables 0 env.max_retries st with
  | mk r st1 =>
    rw [hrl] at hspec hsle
    cases r with
    | error e =>
      rw [handleFailedTables_eq_err env st st1 e hrl]
      refine ⟨fun t ht => hspec.1 ▸ ht, ?_, hsle⟩
      intro rc h
      exact absurd h (by simp)
    | ok p =>
      obtain ⟨rem, rc⟩ := p
      rw [handleFailedTables_eq_ok env st st1 rem rc hrl]
      obtain ⟨h1, h2⟩ := hspec.2 rem rc rfl
      refine ⟨fun t ht => h1 t ht, fun rc2 hrc2 => ?_, ?_⟩
      · have h' : (Except.ok rc : Except String Nat) = Except.ok rc2 := hrc2
        simp only [Except.ok.injEq] at h'
        subst h'
        simpa using h2
      · exact StoreLE.trans hsle (StoreLE.of_data_eq rfl)

/-! Equation lemmas for populate_database. -/

theorem populateDatabase_eq_badAnalyze (env : Env) (st : PState)
    (h : env.analyze_ok = false) :
    populateDatabase env st = (Except.ok false, st) := by
  unfold populateDatabase
  rw [if_pos h]

theorem populateDatabase_eq_noTables (env : Env) (st : PState)
    (h1 : env.analyze_ok = true) (h2 : env.ordered_tables = []) :
    populateDatabase env st = (Except.ok false, st) := by
  unfold populateDatabase
  rw [if_neg (by simp [h1]), if_pos h2]

theorem populateDatabase_eq_p1err (env : Env) (st st1 : PState) (e : String)
    (h1 : env.analyze_ok = true) (h2 : env.ordered_tables ≠ [])
    (hrt : runTables env false (nonCircList env) st = (Except.error e, st1)) :
    populateDatabase env st = (Except.error e, st1) := by
  unfold populateDatabase
  rw [if_neg (by simp [h1]), if_neg h2]
  simp only [hrt]

theorem populateDatabase_eq_noCirc (env : Env) (st st1 : PState)
    (h1 : env.analyze_ok = true) (h2 : env.ordered_tables ≠ [])
    (hcirc : env.circular_tables = [])
    (hrt : runTables env false (nonCircList env) st = (Except.ok (), st1)) :
    populateDatabase env st = (Except.ok (decide (st1.failed_tables = [])), st1) := by
  unfold populateDatabase
  rw [if_neg (by simp [h1]), if_neg h2]
  simp only [hrt]
  rw [if_pos hcirc]

theorem populateDatabase_eq_p2err (env : Env) (st st1 st2 : PState) (e : String)
    (h1 : env.analyze_ok = true) (h2 : env.ordered_tables ≠ [])
    (hcirc : env.circular_tables ≠ [])
    (hrt : runTables env false (nonCircList env) st = (Except.ok (), st1))
    (hrt2 : runTables env true (circList env) st1 = (Except.error e, st2)) :
    populateDatabase env st = (Except.error e, st2) := by
  unfold populateDatabase
  rw [if_neg (by simp [h1]), if_neg h2]
  simp only [hrt]
  rw [if_neg hcirc]
  simp only [hrt2]

theorem populateDatabase_eq_circ_noFail (env : Env) (st st1 st2 : PState)
    (h1 : env.analyze_ok = true) (h2 : env.ordered_tables ≠ [])
    (hcirc : env.circular_tables ≠ [])
    (hrt : runTables env false (nonCircList env) st = (Except.ok (), st1))
    (hrt2 : runTables env true (circList env) st1 = (Except.ok (), st2))
    (hf : st2.failed_tables = []) :
    populateDatabase env st = (Except.ok true, st2) := by
  unfold populateDatabase
  rw [if_neg (by simp [h1]), if_neg h2]
  simp only [hrt]
  rw [if_neg hcirc]
  simp only [hrt2]
  rw [if_pos hf]

theorem populateDatabase_eq_repair_err (env : Env) (st st1 st2 st3 : PState)
    (e : String)
    (h1 : env.analyze_ok = true) (h2 : env.ordered_tables ≠ [])
    (hcirc : env.circular_tables ≠ [])
    (hrt : runTables env false (nonCircList env) st = (Except.ok (), st1))
    (hrt2 : runTables env true (circList env) st1 = (Except.ok (), st2))
    (hf : st2.failed_tables ≠ [])
    (hhf : handleFailedTables env st2 = (Except.error e, st3)) :
    populateDatabase env st = (Except.error e, st3) := by
  unfold populateDatabase
  rw [if_neg (by simp [h1]), if_neg h2]
  simp only [hrt]
  rw [if_neg hcirc]
  simp only [hrt2]
  rw [if_neg hf]
  simp only [hhf]

theorem populateDatabase_eq_repair_ok (env : Env) (st st1 st2 st3 : PState)
    (rc : Nat)
    (h1 : env.analyze_ok = true) (h2 : env.ordered_tables ≠ [])
    (hcirc : env.circular_tables ≠ [])
    (hrt : runTables env false (nonCircList env) st = (Except.ok (), st1))
    (hrt2 : runTables env true (circList env) st1 = (Except.ok (), st2))
    (hf : st2.failed_tables ≠ [])
    (hhf : handleFailedTables env st2 = (Except.ok rc, st3)) :
    populateDatabase env st = (Except.ok (decide (st3.failed_tables = [])), st3) := by
  unfold populateDatabase
  rw [if_neg (by simp [h1]), if_neg h2]
  simp only [hrt]
  rw [if_neg hcirc]
  simp only [hrt2]
  rw [if_neg hf]
  simp only [hhf]

theorem handleFailedTables_storeLE (env : Env) (st : PState) :
    StoreLE st (handleFailedTables env st).2 := by
  have hsle := repairLoop_storeLE env env.max_retries st.failed_tables 0 st
  cases hrl : repairLoop env st.failed_tables 0 env.max_retries st with
  | mk r st1 =>
    rw [hrl] at hsle
    cases r with
    | error e =>
      rw [handleFailedTables_eq_err env st st1 e hrl]
      exact hsle
    | ok p =>
      obtain ⟨rem, rc⟩ := p
      rw [handleFailedTables_eq_ok env st st1 rem rc hrl]
      exact StoreLE.trans hsle (StoreLE.of_data_eq rfl)

theorem populateDatabase_storeLE (env : Env) (st : PState) :
    StoreLE st (populateDatabase env st).2 := by
  by_cases ha : env.analyze_ok = false
  · rw [populateDatabase_eq_badAnalyze env st ha]
    exact StoreLE.refl st
  · have h1 : env.analyze_ok = true := by revert ha; cases env.analyze_ok <;> simp
    by_cases h2 : env.ordered_tables = []
    · rw [populateDatabase_eq_noTables env st h1 h2]
      exact StoreLE.refl st
    · have hs1 := runTables_storeLE env false (nonCircList env) st
      cases hrt : runTables env false (nonCircList env) st with
      | mk r1 st1 =>
        rw [hrt] at hs1
        cases r1 with
        | error e =>
          rw [populateDatabase_eq_p1err env st st1 e h1 h2 hrt]
          exact hs1
        | ok u =>
          cases u
          by_cases hcirc : env.circular_tables = []
          · rw [populateDatabase_eq_noCirc env st st1 h1 h2 hcirc hrt]
            exact hs1
          · have hs2 := runTables_storeLE env true (circList env) st1
            cases hrt2 : runTables env true (circList env) st1 with
            | mk r2 st2 =>
              rw [hrt2] at hs2
              cases r2 with
              | error e =>
                rw [populateDatabase_eq_p2err env st st1 st2 e h1 h2 hcirc hrt hrt2]
                exact StoreLE.trans hs1 hs2
              | ok u2 =>
                cases u2
                by_cases hf : st2.failed_tables = []
                · rw [populateDatabase_eq_circ_noFail env st st1 st2 h1 h2 hcirc hrt hrt2 hf]
                  exact StoreLE.trans hs1 hs2
                · have hs3 := handleFailedTables_storeLE env st2
                  cases hhf : handleFailedTables env st2 with
                  | mk r3 st3 =>
                    rw [hhf] at hs3
                    cases r3 with
                    | error e =>
                      rw [populateDatabase_eq_repair_err env st st1 st2 st3 e
                        h1 h2 hcirc hrt hrt2 hf hhf]
                      exact StoreLE.trans (StoreLE.trans hs1 hs2) hs3
                    | ok rc =>
                      rw [populateDatabase_eq_repair_ok env st st1 st2 st3 rc
                        h1 h2 hcirc hrt hrt2 hf hhf]
                      exact StoreLE.trans (StoreLE.trans hs1 hs2) hs3

/-! The claims. -/

/-- C2 counterexample: a run whose schema analysis fails returns false
while the failed-table set is empty at the end of the run, refuting
"populate_database returns true if and only if the failed-table set is
empty at the end of the run" as a biconditional over all runs. -/
theorem populator_C2_cex :
    populateDatabase envC2bad initState = (Except.ok false, initState) ∧
    initState.failed_tables = [] := by
  constructor
  · exact populateDatabase_eq_badAnalyze envC2bad initState rfl
  · rfl

/-- C2 (amended): when schema analysis succeeds and the table order is
non-empty, and the run completes without an uncaught exception,
populate_database returns true iff the failed-table set is empty at the
end; and no stored row is ever rolled back — every table's row store at
return extends the store at entry (rows are only appended).  (On a
schema-analysis failure or an empty order the function returns false
even though the failed set may be empty.) -/
theorem populator_C2_amended (env : Env) (st : PState) (b : Bool) (st' : PState)
    (ha : env.analyze_ok = true) (ho : env.ordered_tables ≠ [])
    (hrun : populateDatabase env st = (Except.ok b, st')) :
    (b = true ↔ st'.failed_tables = []) ∧ StoreLE st st' := by
  have hsle := populateDatabase_storeLE env st
  rw [hrun] at hsle
  refine ⟨?_, hsle⟩
  cases hrt : runTables env false (nonCircList env) st with
  | mk r1 st1 =>
    cases r1 with
    | error e =>
      rw [populateDatabase_eq_p1err env st st1 e ha ho hrt] at hrun
      simp at hrun
    | ok u =>
      cases u
      by_cases hcirc : env.circular_tables = []
      · rw [populateDatabase_eq_noCirc env st st1 ha ho hcirc hrt] at hrun
        simp only [Prod.mk.injEq, Except.ok.injEq] at hrun
        obtain ⟨hb, hst⟩ := hrun
        subst hst
        rw [← hb]
        simp
      · cases hrt2 : runTables env true (circList env) st1 with
        | mk r2 st2 =>
          cases r2 with
          | error e =>
            rw [populateDatabase_eq_p2err env st st1 st2 e ha ho hcirc hrt hrt2] at hrun
            simp at hrun
          | ok u2 =>
            cases u2
            by_cases hf : st2.failed_tables = []
            · rw [populateDatabase_eq_circ_noFail env st st1 st2 ha ho hcirc hrt hrt2 hf]
                at hrun
              simp only [Prod.mk.injEq, Except.ok.injEq] at hrun
              obtain ⟨hb, hst⟩ := hrun
              subst hst
              rw [← hb]
              simp [hf]
            · cases hhf : handleFailedTables env st2 with
              | mk r3 st3 =>
                cases r3 with
                | error e =>
                  rw [populateDatabase_eq_repair_err env st st1 st2 st3 e
                    ha ho hcirc hrt hrt2 hf hhf] at hrun
                  simp at hrun
                | ok rc =>
                  rw [populateDatabase_eq_repair_ok env st st1 st2 st3 rc
                    ha ho hcirc hrt hrt2 hf hhf] at hrun
                  simp only [Prod.mk.injEq, Except.ok.injEq] at hrun
                  obtain ⟨hb, hst⟩ := hrun
                  subst hst
                  rw [← hb]
                  simp

/-- C2 witness: the amended theorem applied to the concrete one-table
environment envA, whose run succeeds with an empty failed set. -/
theorem populator_C2_witness :
    ((populateDatabase envA initState).1 = Except.ok true) ∧
    (populateDatabase envA initState).2.failed_tables = [] ∧
    StoreLE initState (populateDatabase envA initState).2 := by
  have h := populator_C2_amended envA initState true
    (populateDatabase envA initState).2 rfl (by decide) (by rfl)
  exact ⟨by rfl, by rfl, h.2⟩

/-- C5: the repair loop of _handle_failed_tables runs at most
max_retries iterations (the final retry_count it reports is bounded by
max_retries) regardless of progress, and the failed-table set it leaves
behind is a subset of the failed-table set it started from — on the
exception path the failed set is left as it was. -/
theorem populator_C5 (env : Env) (st : PState) (r : Except String Nat) (st' : PState)
    (henv : EnvOk env)
    (h : handleFailedTables env st = (r, st')) :
    (∀ t ∈ st'.failed_tables, t ∈ st.failed_tables) ∧
    (∀ rc, r = Except.ok rc → rc ≤ env.max_retries) := by
  have hs := handleFailedTables_spec env henv st
  rw [h] at hs
  exact ⟨hs.1, hs.2.1⟩

/-- EnvOk for envFail (same trivial random oracles as envA). -/
theorem envFail_ok : EnvOk envFail := by
  refine ⟨?_, ?_, ?_, ?_⟩
  · intro t n h; exact h
  · intro t lo hi _; exact Nat.le_refl lo
  · intro t lo hi h; exact h
  · intro t l x h; exact h

/-- C5 witness: with all inserts failing, repair on the failed set
containing T exhausts its five retries, leaves T failed, and the
theorem instantiates to concrete membership and the concrete retry
bound. -/
theorem populator_C5_witness :
    ("T" ∈ stT.failed_tables) ∧ (5 : Nat) ≤ envFail.max_retries := by
  have h := populator_C5 envFail stT (handleFailedTables envFail stT).1
    (handleFailedTables envFail stT).2 envFail_ok rfl
  exact ⟨h.1 "T" (by decide), h.2 5 (by rfl)⟩

/-- Filtering with nonSentinel twice is the same as filtering once. -/
theorem filter_nonSentinel_idem (l : List String) :
    (l.filter nonSentinel).filter nonSentinel = l.filter nonSentinel := by
  induction l with
  | nil => rfl
  | cons a rest ih =>
    by_cases h : nonSentinel a = true <;> simp [List.filter_cons, h, ih]

/-- C7: when both sentinel tables occur in the order, populate_database
rewrites it to SyncSource first, then the remaining tables in their
original relative order, then SyncSource_LogAlert last; when at least
one sentinel is absent, the order is used unmodified. -/
theorem populator_C7 (l : List String) :
    (("SyncSource" ∈ l ∧ "SyncSource_LogAlert" ∈ l) →
      specialReorder l =
        "SyncSource" :: (l.filter nonSentinel ++ ["SyncSource_LogAlert"]) ∧
      (specialReorder l).head? = some "SyncSource" ∧
      (specialReorder l).getLast? = some "SyncSource_LogAlert" ∧
      (specialReorder l).filter nonSentinel = l.filter nonSentinel) ∧
    (¬ ("SyncSource" ∈ l ∧ "SyncSource_LogAlert" ∈ l) → specialReorder l = l) := by
  constructor
  · intro h
    have he : specialReorder l =
        "SyncSource" :: (l.filter nonSentinel ++ ["SyncSource_LogAlert"]) := by
      unfold specialReorder
      rw [if_pos h]
    refine ⟨he, ?_, ?_, ?_⟩
    · rw [he]; rfl
    · rw [he, show ("SyncSource" :: (l.filter nonSentinel ++ ["SyncSource_LogAlert"])) =
        (("SyncSource" :: l.filter nonSentinel) ++ ["SyncSource_LogAlert"]) from rfl]
      exact List.getLast?_concat _
    · rw [he]
      have h1 : nonSentinel "SyncSource" = false := by rfl
      have h2 : nonSentinel "SyncSource_LogAlert" = false := by rfl
      simp [List.filter_cons, List.filter_append, h1, h2, filter_nonSentinel_idem]
  · intro h
    unfold specialReorder
    rw [if_neg h]

/-- C7 witness: the reordering rule applied to a concrete order holding
both sentinels, and the identity case applied to one without them. -/
theorem populator_C7_witness :
    specialReorder ["A", "SyncSource", "B", "SyncSource_LogAlert"] =
      "SyncSource" ::
        (["A", "SyncSource", "B", "SyncSource_LogAlert"].filter nonSentinel ++
          ["SyncSource_LogAlert"]) ∧
    specialReorder ["A", "B"] = ["A", "B"] :=
  ⟨((populator_C7 ["A", "SyncSource", "B", "SyncSource_LogAlert"]).1 (by decide)).1,
    (populator_C7 ["A", "B"]).2 (by decide)⟩

/-- C8: _generate_placeholder_value returns, for an integer-family
primary key, a random integer in the inclusive range
[1000000, 9999999]; for a varchar/char primary key, the fixed prefix
temp- followed by a random numeric suffix in [100000, 999999]; and for
every non-primary-key column, exactly the ordinary value synthesizer's
result (generate_value with table_name None). -/
theorem populator_C8 (env : Env) (henv : EnvOk env) (col : Column) (t : Nat) :
    (col.column_key = "PRI" → intTypes.contains (strLower col.data_type) = true →
      ∃ n : Nat, generatePlaceholderValue env col t = Value.vint (Int.ofNat n) ∧
        1000000 ≤ n ∧ n ≤ 9999999) ∧
    (col.column_key = "PRI" → strTypes.contains (strLower col.data_type) = true →
      ∃ n : Nat, generatePlaceholderValue env col t =
        Value.vstr (String.append "temp-" (toString n)) ∧
        100000 ≤ n ∧ n ≤ 999999) ∧
    (col.column_key ≠ "PRI" →
      generatePlaceholderValue env col t = env.genValue t col none) := by
  refine ⟨?_, ?_, ?_⟩
  · intro hp hi
    unfold generatePlaceholderValue
    rw [if_pos hp, if_pos hi]
    exact ⟨env.randint t 1000000 9999999, rfl,
      henv.randint_ge t 1000000 9999999 (by omega),
      henv.randint_le t 1000000 9999999 (by omega)⟩
  · intro hp hs
    have hsm : strLower col.data_type ∈ strTypes := List.elem_iff.1 hs
    have hni : ¬ intTypes.contains (strLower col.data_type) = true := by
      intro hi
      have him : strLower col.data_type ∈ intTypes := List.elem_iff.1 hi
      rcases (by simpa [strTypes] using hsm : _ ∨ _) with hv | hv <;>
        simp [intTypes, hv] at him
    unfold generatePlaceholderValue
    rw [if_pos hp, if_neg hni, if_pos hs]
    exact ⟨env.randint t 100000 999999, rfl,
      henv.randint_ge t 100000 999999 (by omega),
      henv.randint_le t 100000 999999 (by omega)⟩
  · intro hp
    unfold generatePlaceholderValue
    rw [if_neg hp]

/-- C8 witness: concrete placeholders for the integer primary key colPK
(upper-case INT declared type) and the varchar primary key colSPK, and
the ordinary synthesizer result for the plain column colX, under envA's
lower-bound random oracle. -/
theorem populator_C8_witness :
    (∃ n : Nat, generatePlaceholderValue envA colPK 0 = Value.vint (Int.ofNat n) ∧
      1000000 ≤ n ∧ n ≤ 9999999) ∧
    (∃ n : Nat, generatePlaceholderValue envA colSPK 0 =
      Value.vstr (String.append "temp-" (toString n)) ∧ 100000 ≤ n ∧ n ≤ 999999) ∧
    generatePlaceholderValue envA colX 0 = envA.genValue 0 colX none :=
  ⟨(populator_C8 envA envA_ok colPK 0).1 rfl (by decide),
    (populator_C8 envA envA_ok colSPK 0).2.1 rfl (by decide),
    (populator_C8 envA envA_ok colX 0).2.2 (by decide)⟩

/-- C1 counterexample: in envC1 the circular set is empty and table T
fails in phase 1 (its insert at tick 1 fails), so after the phases the
failed set is non-empty, yet populate_database returns with T still
failed — while invoking the repair engine on that very state would have
emptied the failed set (the repair-time insert at tick 4 succeeds).
The repair engine was therefore not invoked although a table was in the
failed set after the phases. -/
theorem populator_C1_cex :
    (populateDatabase envC1 initState).1 = Except.ok false ∧
    (populateDatabase envC1 initState).2.failed_tables = ["T"] ∧
    (handleFailedTables envC1 (populateDatabase envC1 initState).2).2.failed_tables
      = [] := by
  refine ⟨by rfl, by rfl, by rfl⟩

/-- C1 (amended): the repair engine is invoked iff the circular set is
non-empty and the failed set is non-empty after phase 2.  When the
circular set is empty, populate_database's result is exactly the state
after phase 1 — no repair happens even if the failed set is non-empty;
when the circular set is non-empty, the result is the post-repair state
exactly when the failed set after phase 2 is non-empty. -/
theorem populator_C1_amended (env : Env) (st : PState)
    (ha : env.analyze_ok = true) (ho : env.ordered_tables ≠ []) :
    (env.circular_tables = [] →
      ∀ st1, runTables env false (nonCircList env) st = (Except.ok (), st1) →
        populateDatabase env st =
          (Except.ok (decide (st1.failed_tables = [])), st1)) ∧
    (env.circular_tables ≠ [] →
      ∀ st1 st2, runTables env false (nonCircList env) st = (Except.ok (), st1) →
        runTables env true (circList env) st1 = (Except.ok (), st2) →
        (st2.failed_tables = [] → populateDatabase env st = (Except.ok true, st2)) ∧
        (st2.failed_tables ≠ [] →
          ∀ rc st3, handleFailedTables env st2 = (Except.ok rc, st3) →
            populateDatabase env st =
              (Except.ok (decide (st3.failed_tables = [])), st3))) := by
  constructor
  · intro hcirc st1 hrt
    exact populateDatabase_eq_noCirc env st st1 ha ho hcirc hrt
  · intro hcirc st1 st2 hrt hrt2
    exact ⟨fun hf =>
        populateDatabase_eq_circ_noFail env st st1 st2 ha ho hcirc hrt hrt2 hf,
      fun hf rc st3 hhf =>
        populateDatabase_eq_repair_ok env st st1 st2 st3 rc ha ho hcirc hrt hrt2 hf hhf⟩

/-- C1 witness: the no-circular branch of the amended theorem applied to
the concrete envC1 run. -/
theorem populator_C1_witness :
    populateDatabase envC1 initState =
      (Except.ok (decide
          ((runTables envC1 false (nonCircList envC1) initState).2.failed_tables = [])),
        (runTables envC1 false (nonCircList envC1) initState).2) :=
  (populator_C1_amended envC1 initState rfl (by decide)).1 rfl
    (runTables envC1 false (nonCircList envC1) initState).2 (by rfl)

/-- C4 counterexample: with a target record count of zero,
_populate_table attempts nothing, zero inserts succeed, yet it returns
true and the table is not added to the failed set — refuting the
claimed biconditional "returns false iff zero inserts succeeded". -/
theorem populator_C4_cex :
    populateTableAux envC4 "T" false initState = (Except.ok (0, true), initState) ∧
    initState.failed_tables = [] := by
  exact ⟨by rfl, rfl⟩

/-- C4 (amended): for a table known to the schema and a positive target
record count, _populate_table returns false and adds the table to the
failed set iff zero inserts succeeded; with at least one success it
returns true and leaves the failed set unchanged.  (With a target count
of zero it returns true despite zero successes.) -/
theorem populator_C4_amended (env : Env) (table : String) (cols : List Column)
    (hc : Bool) (st : PState) (succ : Nat) (b : Bool) (st' : PState)
    (hcols : alookup env.table_columns table = some cols)
    (hn : 0 < env.num_records)
    (h : populateTableAux env table hc st = (Except.ok (succ, b), st')) :
    (b = false ↔ succ = 0) ∧
    (succ = 0 → st'.failed_tables = insertSet st.failed_tables table) ∧
    (0 < succ → st'.failed_tables = st.failed_tables) := by
  have hil0 := insertLoop_state env table cols hc env.num_records 0 st
  cases hil : insertLoop env table cols hc env.num_records 0 st with
  | mk r st1 =>
    rw [hil] at hil0
    cases r with
    | error e =>
      rw [populateTableAux_eq_err env table hc st st1 cols e hcols hil] at h
      simp at h
    | ok succ2 =>
      rw [populateTableAux_eq_ok env table hc st st1 cols succ2 hcols hil] at h
      by_cases h1 : succ2 < env.num_records
      · rw [if_pos h1] at h
        by_cases h2 : succ2 = 0
        · rw [if_pos h2] at h
          simp only [Prod.mk.injEq, Except.ok.injEq] at h
          obtain ⟨⟨hs, hb⟩, hst⟩ := h
          subst hs; subst h2
          refine ⟨by simp [← hb], fun _ => ?_, fun hpos => absurd hpos (by omega)⟩
          rw [← hst]
          show insertSet st1.failed_tables table = insertSet st.failed_tables table
          rw [hil0.1]
        · rw [if_neg h2] at h
          simp only [Prod.mk.injEq, Except.ok.injEq] at h
          obtain ⟨⟨hs, hb⟩, hst⟩ := h
          subst hs
          refine ⟨by simp [← hb, h2], fun h0 => absurd h0 h2, fun _ => ?_⟩
          rw [← hst, hil0.1]
      · rw [if_neg h1] at h
        simp only [Prod.mk.injEq, Except.ok.injEq] at h
        obtain ⟨⟨hs, hb⟩, hst⟩ := h
        subst hs
        have hpos : 0 < succ2 := by omega
        refine ⟨by simp [← hb]; omega, fun h0 => absurd h0 (by omega), fun _ => ?_⟩
        rw [← hst, hil0.1]

/-- C4 witness: the amended theorem at envA's single-record run of
table T, which succeeds with one insert: returns true, no failed-set
change. -/
theorem populator_C4_witness :
    ((true : Bool) = false ↔ (1 : Nat) = 0) ∧
    ((1 : Nat) = 0 → (populateTableAux envA "T" false initState).2.failed_tables =
      insertSet initState.failed_tables "T") ∧
    (0 < (1 : Nat) → (populateTableAux envA "T" false initState).2.failed_tables =
      initState.failed_tables) :=
  populator_C4_amended envA "T" [colX] false initState 1 true
    (populateTableAux envA "T" false initState).2 (by rfl) (by decide) (by rfl)

/-- C6: the code violates the claim.  _try_partial_population reads
self.schema.table_columns[table] with no membership check (populator.py
line 367), so for a table absent from the schema metadata it raises
KeyError; the repair engine reaches it for exactly such tables (they are
marked failed by _populate_table), so the uncaught exception escapes
populate_database, contradicting the propagation policy that no code
path below the top-level call may terminate the process.  In envC6 the
absent table Ghost is in the circular set: phase 2 marks it failed,
repair retries it without progress and then calls
_try_partial_population, which raises. -/
theorem populator_C6_bug :
    tryPartialPopulation envC6 "Ghost" initState =
      (Except.error "KeyError", initState) ∧
    (populateDatabase envC6 initState).1 = Except.error "KeyError" := by
  exact ⟨by rfl, by rfl⟩

/-- C9: the Per-table Row Store invariant at the shared insert-attempt
body (used by both _populate_table's record loop and
_try_partial_population): the failed set is untouched; no other table's
store changes; this table's store either stays put or gains exactly one
appended row; on an exception no store changes; and given the generated
row, the store is extended exactly when the committed insert succeeded,
by the row as back-filled before the append — entries are never removed
or mutated after being appended. -/
theorem populator_C9 (env : Env) (table : String) (cols : List Column) (hc : Bool)
    (st : PState) (r : Except String Bool) (st' : PState)
    (h : attemptInsert env table cols hc st = (r, st')) :
    st'.failed_tables = st.failed_tables ∧
    (∀ t2, t2 ≠ table → getRows st' t2 = getRows st t2) ∧
    (getRows st' table = getRows st table ∨
      ∃ row2, getRows st' table = getRows st table ++ [row2]) ∧
    (∀ e, r = Except.error e → st'.inserted_data = st.inserted_data) ∧
    (∀ row st1, generateRowData env table cols hc st = (Except.ok row, st1) →
      (env.insertOk st1.tick = false →
        r = Except.ok false ∧ st'.inserted_data = st.inserted_data) ∧
      (env.insertOk st1.tick = true →
        r = Except.ok true ∧
        getRows st' table = getRows st table ++
          [(backfillColumns env cols row (bump st1)).1])) := by
  have hfl := attemptInsert_failed env table cols hc st
  rw [h] at hfl
  refine ⟨hfl, ?_⟩
  have hg := generateRowData_state env table cols hc st
  cases hge : generateRowData env table cols hc st with
  | mk g st1 =>
    rw [hge] at hg
    cases g with
    | error e =>
      rw [attemptInsert_eq_err env table cols hc st st1 e hge] at h
      simp only [Prod.mk.injEq] at h
      obtain ⟨hr, hst⟩ := h
      subst hst
      refine ⟨fun t2 _ => getRows_eq_of_data_eq hg.1 t2,
        Or.inl (getRows_eq_of_data_eq hg.1 table),
        fun e2 _ => hg.1, ?_⟩
      intro row st1x hgen2
      simp at hgen2
    | ok row =>
      rw [attemptInsert_eq_ok env table cols hc st st1 row hge] at h
      by_cases hio : env.insertOk st1.tick = true
      · rw [if_pos hio] at h
        simp only [Prod.mk.injEq] at h
        obtain ⟨hr, hst⟩ := h
        subst hst
        have hbf := backfillColumns_state env cols row (bump st1)
        have hdata : (backfillColumns env cols row (bump st1)).2.inserted_data =
            st.inserted_data := hbf.1.trans hg.1
        refine ⟨?_, ?_, ?_, ?_⟩
        · intro t2 ht2
          rw [getRows_appendRow, if_neg ht2]
          exact getRows_eq_of_data_eq hdata t2
        · refine Or.inr ⟨(backfillColumns env cols row (bump st1)).1, ?_⟩
          rw [getRows_appendRow, if_pos rfl, getRows_eq_of_data_eq hdata table]
        · intro e2 he2
          rw [← hr] at he2
          simp at he2
        · intro row2 st1x hgen2
          simp only [Prod.mk.injEq, Except.ok.injEq] at hgen2
          obtain ⟨hrow, hst1⟩ := hgen2
          subst hrow; subst hst1
          refine ⟨fun hfalse => absurd hio (by simp [hfalse]), fun _ => ⟨hr.symm, ?_⟩⟩
          rw [getRows_appendRow, if_pos rfl, getRows_eq_of_data_eq hdata table]
      · rw [if_neg hio] at h
        simp only [Prod.mk.injEq] at h
        obtain ⟨hr, hst⟩ := h
        subst hst
        refine ⟨fun t2 _ => getRows_eq_of_data_eq hg.1 t2,
          Or.inl (getRows_eq_of_data_eq hg.1 table),
          fun e2 he2 => by rw [← hr] at he2; simp at he2, ?_⟩
        intro row2 st1x hgen2
        simp only [Prod.mk.injEq, Except.ok.injEq] at hgen2
        obtain ⟨hrow, hst1⟩ := hgen2
        subst hrow; subst hst1
        exact ⟨fun _ => ⟨hr.symm, hg.1⟩, fun htrue => absurd htrue hio⟩

/-- C9 witness: the invariant evaluated on envA's concrete insert
attempt for table T. -/
theorem populator_C9_witness :
    (attemptInsert envA "T" [colX] false initState).2.failed_tables =
      initState.failed_tables ∧
    getRows (attemptInsert envA "T" [colX] false initState).2 "U" =
      getRows initState "U" := by
  have h := populator_C9 envA "T" [colX] false initState
    (attemptInsert envA "T" [colX] false initState).1
    (attemptInsert envA "T" [colX] false initState).2 rfl
  exact ⟨h.1, h.2.1 "U" (by decide)⟩

/-- C10: when every SELECT LAST_INSERT_ID() read is falsy (no result,
an empty result list, or id 0), the auto-increment back-fill is
skipped: the per-column back-fill step leaves the row unchanged (only
consuming the probe), the whole back-fill loop returns the row as
generated, and the row appended to the Per-table Row Store by a
successful insert is exactly the originally generated row — possibly
different from the identifier the database actually assigned. -/
theorem populator_C10 (env : Env)
    (hfAll : ∀ t, truthyId (env.lastId t) = false) :
    (∀ (col : Column) (row : Row) (st : PState), col.extra = "auto_increment" →
      backfillStep env col row st = (row, bump st)) ∧
    (∀ (cols : List Column) (row : Row) (st : PState),
      (backfillColumns env cols row st).1 = row) ∧
    (∀ (table : String) (cols : List Column) (hc : Bool) (st st4 : PState),
      attemptInsert env table cols hc st = (Except.ok true, st4) →
      ∀ (row : Row) (st1 : PState),
        generateRowData env table cols hc st = (Except.ok row, st1) →
        getRows st4 table = getRows st table ++ [row]) := by
  have hstepAI : ∀ (col : Column) (row : Row) (st : PState),
      col.extra = "auto_increment" → backfillStep env col row st = (row, bump st) := by
    intro col row st hcol
    have hf := hfAll st.tick
    unfold backfillStep
    rw [if_pos hcol]
    cases hl : env.lastId st.tick with
    | none => rfl
    | some l =>
      cases l with
      | nil => rfl
      | cons id ids =>
        rw [hl] at hf
        unfold truthyId at hf
        have hid : id = 0 := by simpa using hf
        simp [hid]
  have hstep : ∀ (col : Column) (row : Row) (st : PState),
      (backfillStep env col row st).1 = row := by
    intro col row st
    by_cases hcol : col.extra = "auto_increment"
    · rw [hstepAI col row st hcol]
    · unfold backfillStep
      rw [if_neg hcol]
  have hcols : ∀ (cols : List Column) (row : Row) (st : PState),
      (backfillColumns env cols row st).1 = row := by
    intro cols
    induction cols with
    | nil => intro row st; rfl
    | cons col rest ih =>
      intro row st
      unfold backfillColumns
      rw [hstep col row st]
      exact ih row (backfillStep env col row st).2
  refine ⟨hstepAI, hcols, ?_⟩
  intro table cols hc st st4 h row st1 hgen
  rw [attemptInsert_eq_ok env table cols hc st st1 row hgen] at h
  by_cases hio : env.insertOk st1.tick = true
  · rw [if_pos hio] at h
    simp only [Prod.mk.injEq] at h
    obtain ⟨_, hst⟩ := h
    subst hst
    have hg := generateRowData_state env table cols hc st
    rw [hgen] at hg
    have hbf := backfillColumns_state env cols row (bump st1)
    have hdata : (backfillColumns env cols row (bump st1)).2.inserted_data =
        st.inserted_data := hbf.1.trans hg.1
    rw [getRows_appendRow, if_pos rfl, getRows_eq_of_data_eq hdata table,
      hcols cols row (bump st1)]
  · rw [if_neg hio] at h
    simp at h

/-- C10 witness: with envA's always-falsy LAST_INSERT_ID oracle, the
back-fill of the auto-increment column colAI leaves rows unchanged. -/
theorem populator_C10_witness :
    backfillStep envA colAI [] initState = ([], bump initState) ∧
    (backfillColumns envA [colAI] [("id", Value.vint 5)] initState).1 =
      [("id", Value.vint 5)] := by
  have h := populator_C10 envA (fun t => rfl)
  exact ⟨h.1 colAI [] initState rfl, h.2.1 [colAI] [("id", Value.vint 5)] initState⟩

/-- EnvOk for envC3 (same trivial random oracles as envA). -/
theorem envC3_ok : EnvOk envC3 := by
  refine ⟨?_, ?_, ?_, ?_⟩
  · intro t n h; exact h
  · intro t lo hi _; exact Nat.le_refl lo
  · intro t lo hi h; exact h
  · intro t l x h; exact h

/-- C3 counterexample: for the NOT NULL foreign key A.b_id -> B.id with
an empty referenced store, under circular handling the resolved value is
the value 42 fetched by the direct SELECT probe of table B — it is not
copied from the (empty) Row Store, it is not NULL, and it is not a
locally generated placeholder (with envC3's constant synthesizer the
placeholder generator returns the string value gen at every tick; ticks
0 and 1 are the only ones reachable in this call).  The claimed
three-way disjunction over foreign-key values therefore fails. -/
theorem populator_C3_cex :
    (resolveColumn envC3 "A" colBId true initState).1 = Except.ok (Value.vint 42) ∧
    getRows initState "B" = [] ∧
    Value.vint 42 ≠ Value.vnull ∧
    generatePlaceholderValue envC3 colBId 0 = Value.vstr "gen" ∧
    generatePlaceholderValue envC3 colBId 1 = Value.vstr "gen" ∧
    Value.vint 42 ≠ Value.vstr "gen" ∧
    colBId.is_nullable = "NO" := by
  refine ⟨by rfl, rfl, by decide, by rfl, by rfl, by decide, rfl⟩

/-- C3 (amended): for a foreign-key column (outside the sentinel
shortcut), the resolved value is (a) copied verbatim from an Inserted
Row of the referenced table's store, (b) NULL when the store is empty
and the column is effectively nullable, (c) a locally generated
placeholder only when the store is empty and the column is not
nullable, or (d) a non-NULL value fetched from the referenced table by
a direct database probe — possible only under circular handling with an
empty store and a non-nullable column.  A nullable foreign key with an
empty referenced store always resolves to NULL. -/
theorem populator_C3_amended (env : Env) (henv : EnvOk env) (table : String)
    (col : Column) (hc : Bool) (st : PState) (fk : FK) (v : Value) (st2 : PState)
    (hns : ¬ (table = "SyncSource_LogAlert" ∧ col.column_name = "SyncSource_ID" ∧
      poolNonempty st = true))
    (hfk : findFK env table col.column_name = some fk)
    (h : resolveColumn env table col hc st = (Except.ok v, st2)) :
    ((∃ r ∈ getRows st fk.referenced_table,
        alookup r fk.referenced_column = some v) ∨
     (getRows st fk.referenced_table = [] ∧ effNullable env table col fk = true ∧
       v = Value.vnull) ∨
     (getRows st fk.referenced_table = [] ∧ effNullable env table col fk = false ∧
       hc = true ∧ ∃ w l, env.probe st.tick = some (w :: l) ∧ w ≠ Value.vnull ∧
       v = w) ∨
     (getRows st fk.referenced_table = [] ∧ effNullable env table col fk = false ∧
       ∃ t, v = generatePlaceholderValue env col t)) ∧
    (getRows st fk.referenced_table = [] → effNullable env table col fk = true →
      v = Value.vnull) := by
  unfold resolveColumn at h
  rw [if_neg hns] at h
  unfold resolveColumnMain at h
  simp only [hfk] at h
  by_cases hrows : getRows st fk.referenced_table ≠ []
  · rw [if_pos hrows] at h
    cases halk : alookup ((getRows st fk.referenced_table).getD
        (env.choice st.tick (getRows st fk.referenced_table).length) [])
        fk.referenced_column with
    | none =>
      rw [halk] at h
      have h' : ((Except.error "KeyError" : Except String Value), bump st) =
        (Except.ok v, st2) := h
      simp at h'
    | some w =>
      rw [halk] at h
      have h' : ((Except.ok w : Except String Value), bump st) = (Except.ok v, st2) := h
      simp only [Prod.mk.injEq, Except.ok.injEq] at h'
      obtain ⟨hw, _⟩ := h'
      subst hw
      have hlen : 0 < (getRows st fk.referenced_table).length :=
        List.length_pos.2 hrows
      have hlt := henv.choice_lt st.tick (getRows st fk.referenced_table).length hlen
      have hget : (getRows st fk.referenced_table).getD
          (env.choice st.tick (getRows st fk.referenced_table).length) [] =
          (getRows st fk.referenced_table).get
            ⟨env.choice st.tick (getRows st fk.referenced_table).length, hlt⟩ := by
        unfold List.getD
        rw [List.get?_eq_get hlt]
        rfl
      refine ⟨Or.inl ⟨(getRows st fk.referenced_table).get
        ⟨env.choice st.tick (getRows st fk.referenced_table).length, hlt⟩,
        List.get_mem _ _ _, by rw [← hget]; exact halk⟩, ?_⟩
      intro hempty _
      exact absurd hempty (by simp [hempty] at hrows)
  · have hempty : getRows st fk.referenced_table = [] := by
      by_contra hne
      exact hrows hne
    rw [if_neg hrows] at h
    by_cases hnul : effNullable env table col fk = true
    · rw [if_pos hnul] at h
      have h' : ((Except.ok Value.vnull : Except String Value), st) =
        (Except.ok v, st2) := h
      simp only [Prod.mk.injEq, Except.ok.injEq] at h'
      obtain ⟨hw, _⟩ := h'
      subst hw
      exact ⟨Or.inr (Or.inl ⟨hempty, hnul, rfl⟩), fun _ _ => rfl⟩
    · have hnulf : effNullable env table col fk = false := by
        revert hnul; cases effNullable env table col fk <;> simp
      rw [if_neg hnul] at h
      by_cases hhc : hc = true
      · rw [if_pos hhc] at h
        cases hpr : env.probe st.tick with
        | none =>
          rw [hpr] at h
          have h' : ((Except.ok (generatePlaceholderValue env col (st.tick + 1)) :
            Except String Value), bump (bump st)) = (Except.ok v, st2) := h
          simp only [Prod.mk.injEq, Except.ok.injEq] at h'
          obtain ⟨hw, _⟩ := h'
          exact ⟨Or.inr (Or.inr (Or.inr ⟨hempty, hnulf, st.tick + 1, hw.symm⟩)),
            fun _ hn => absurd hn hnul⟩
        | some l =>
          cases l with
          | nil =>
            rw [hpr] at h
            have h' : ((Except.ok (generatePlaceholderValue env col (st.tick + 1)) :
              Except String Value), bump (bump st)) = (Except.ok v, st2) := h
            simp only [Prod.mk.injEq, Except.ok.injEq] at h'
            obtain ⟨hw, _⟩ := h'
            exact ⟨Or.inr (Or.inr (Or.inr ⟨hempty, hnulf, st.tick + 1, hw.symm⟩)),
              fun _ hn => absurd hn hnul⟩
          | cons w tl =>
            rw [hpr] at h
            have h' : (if w = Value.vnull then
                ((Except.ok (generatePlaceholderValue env col (st.tick + 1)) :
                  Except String Value), bump (bump st))
              else (Except.ok w, bump st)) = (Except.ok v, st2) := h
            by_cases hwn : w = Value.vnull
            · rw [if_pos hwn] at h'
              simp only [Prod.mk.injEq, Except.ok.injEq] at h'
              obtain ⟨hw, _⟩ := h'
              exact ⟨Or.inr (Or.inr (Or.inr ⟨hempty, hnulf, st.tick + 1, hw.symm⟩)),
                fun _ hn => absurd hn hnul⟩
            · rw [if_neg hwn] at h'
              simp only [Prod.mk.injEq, Except.ok.injEq] at h'
              obtain ⟨hw, _⟩ := h'
              subst hw
              exact ⟨Or.inr (Or.inr (Or.inl ⟨hempty, hnulf, hhc, w, tl, rfl, hwn, rfl⟩)),
                fun _ hn => absurd hn hnul⟩
      · rw [if_neg hhc] at h
        have h' : ((Except.ok (generatePlaceholderValue env col st.tick) :
          Except String Value), bump st) = (Except.ok v, st2) := h
        simp only [Prod.mk.injEq, Except.ok.injEq] at h'
        obtain ⟨hw, _⟩ := h'
        exact ⟨Or.inr (Or.inr (Or.inr ⟨hempty, hnulf, st.tick, hw.symm⟩)),
          fun _ hn => absurd hn hnul⟩

/-- C3 witness: with one committed row for B in the store, the foreign
key A.b_id resolves by copying B.id = 7 verbatim from the store: the
amended disjunction holds at this concrete input. -/
theorem populator_C3_witness :
    ((∃ r ∈ getRows stB fkB.referenced_table,
        alookup r fkB.referenced_column = some (Value.vint 7)) ∨
     (getRows stB fkB.referenced_table = [] ∧
       effNullable envC3 "A" colBId fkB = true ∧ Value.vint 7 = Value.vnull) ∨
     (getRows stB fkB.referenced_table = [] ∧
       effNullable envC3 "A" colBId fkB = false ∧ true = true ∧
       ∃ w l, envC3.probe stB.tick = some (w :: l) ∧ w ≠ Value.vnull ∧
         Value.vint 7 = w) ∨
     (getRows stB fkB.referenced_table = [] ∧
       effNullable envC3 "A" colBId fkB = false ∧
       ∃ t, Value.vint 7 = generatePlaceholderValue envC3 colBId t)) ∧
    (getRows stB fkB.referenced_table = [] →
      effNullable envC3 "A" colBId fkB = true → Value.vint 7 = Value.vnull) :=
  populator_C3_amended envC3 envC3_ok "A" colBId true stB fkB (Value.vint 7)
    (resolveColumn envC3 "A" colBId true stB).2 (by decide) (by rfl) (by rfl)
